import Mathlib

/-!
Shallow embedding of the rusty-duke game engine (src/logic.rs) and of the
alpha-beta agent (src/ai/alpha_beta.rs).  Rust integer types are modelled as
Nat/Int with the explicit wrap-around casts of the source (`as u8` on an i8
value becomes reduction modulo 256).  Code that can panic (assert, unwrap,
expect) is modelled with Option: a panic becomes `none`.  Rust `debug_assert`
calls are compiled out in release builds and are therefore dropped.  The two
unbounded `loop` constructs of the source are modelled with a fuel argument
large enough that it is never exhausted on the straight or l-shaped board
paths the source walks.  The process RNG used by the bag draw is modelled by
an explicit index argument.
-/

namespace RustyDuke

/-- Width of game board in squares. -/
def WIDTH : Nat := 6

/-- Height of game board in squares. -/
def HEIGHT : Nat := 6

/-- Board coordinate, a pair of u8 values. -/
structure Coordinate where
  x : Nat
  y : Nat
deriving DecidableEq, Repr

/-- Coordinate.legal from the source: x < WIDTH and y < HEIGHT. -/
def Coordinate.legal (x y : Nat) : Bool :=
  x < WIDTH && y < HEIGHT

/-- Direction relative to tile (i8 pair). -/
structure Direction where
  x : Int
  y : Int

/-- Offset relative to tile (i8 pair). -/
structure Offset where
  x : Int
  y : Int
deriving DecidableEq, Repr

/-- Negates both offset components (invert_offset in the source). -/
def invert_offset (offset : Offset) : Offset :=
  { x := offset.x * -1, y := offset.y * -1 }

/-- Rust cast chain `(a as i8 + b) as u8`: embed the i8 sum as an Int and
reduce modulo 256 to obtain the unsigned byte value.  All occurrences in the
source add an i8 in [-2, 2] to a u8 that is at most 5, so the i8 addition
itself cannot overflow. -/
def u8OfI8 (v : Int) : Nat :=
  (v % 256).toNat

/-- get_direction from the source: componentwise sign of end - start. -/
def get_direction (start e : Coordinate) : Direction :=
  { x := if start.x < e.x then 1 else if e.x < start.x then -1 else 0
    y := if start.y < e.y then 1 else if e.y < start.y then -1 else 0 }

/-- Effect imposed by tile on square. -/
inductive Effect where
  | Dread
  | Defence
deriving DecidableEq, Repr

/-- Action type that a tile can perform. -/
inductive ActionType where
  | NewFromBag
  | PlaceNew
  | Move
  | Jump
  | JumpSlide
  | Slide
  | Command
  | Strike
deriving DecidableEq, Repr

/-- Result that action has on game state. -/
inductive ActionResult where
  | Move
  | Capture
deriving DecidableEq, Repr

/-- Specifies possible tile colors. -/
inductive TileColor where
  | Black
  | White
deriving DecidableEq, Repr

/-- Contains winner of game. -/
inductive Winner where
  | Color (c : TileColor)
deriving DecidableEq, Repr

/-- Tile type (the closed enumeration of the source). -/
inductive TileType where
  | Duke
  | Footman
  | Pikeman
  | Knight
  | Bowman
  | LightHorse
  | Wizard
  | Seer
  | Champion
  | Arbalist
  | General
  | Marshall
  | Countess
  | Ranger
  | Sage
  | RoyalAssassin
deriving DecidableEq, Repr

/-- Tile that can be played. -/
structure Tile where
  kind : TileType
  flipped : Bool
  color : TileColor
deriving DecidableEq, Repr

/-- Tile.flip toggles the active side. -/
def Tile.flip (t : Tile) : Tile :=
  { t with flipped := !t.flipped }

/-- Tile.new builds an unflipped tile. -/
def Tile.mk' (kind : TileType) (color : TileColor) : Tile :=
  { kind := kind, flipped := false, color := color }

/-- Square on board. Can have a tile and effects. -/
structure Square where
  effects : List Effect
  tile : Option Tile
deriving DecidableEq, Repr

/-- Default square: no effects, no tile. -/
def Square.default : Square :=
  { effects := [], tile := none }

/-- Data included with standard tile action. -/
structure ActionData where
  tile_pos : Coordinate
  target_pos : Coordinate
  result : ActionResult
deriving DecidableEq, Repr

/-- Data included with command tile action. -/
structure CommandActionData where
  tile_pos : Coordinate
  command_tile_pos : Coordinate
  target_pos : Coordinate
  result : ActionResult
deriving DecidableEq, Repr

/-- Action that a tile can perform. -/
inductive Action where
  | NewFromBag
  | PlaceNew (c : Coordinate)
  | Move (d : ActionData)
  | Jump (d : ActionData)
  | JumpSlide (d : ActionData)
  | Slide (d : ActionData)
  | Command (d : CommandActionData)
  | Strike (d : ActionData)
deriving DecidableEq, Repr

/-- Specifies an action of a tile type. -/
structure AvailableAction where
  kind : ActionType
  offset : Offset
deriving DecidableEq, Repr

/-- Specifies an effect of a tile type. -/
structure AvailableEffect where
  kind : Effect
  offset : Offset
deriving DecidableEq, Repr

/-- Actions that a tile type can perform. -/
structure AvailableActions where
  front : List AvailableAction
  back : List AvailableAction
deriving DecidableEq, Repr

/-- Effects that a tile type can perform. -/
structure AvailableEffects where
  front : List AvailableEffect
  back : List AvailableEffect
deriving DecidableEq, Repr

/-- Abbreviation used while transcribing the TILE_ACTIONS table. -/
def aa (k : ActionType) (x y : Int) : AvailableAction :=
  { kind := k, offset := { x := x, y := y } }

/-- This is where tile types are defined (TILE_ACTIONS in the source,
transcribed entry by entry). -/
def TILE_ACTIONS : TileType → AvailableActions
  | .Duke =>
      { front := [aa .Slide 1 0, aa .Slide (-1) 0]
        back := [aa .Slide 0 1, aa .Slide 0 (-1)] }
  | .Footman =>
      { front := [aa .Move 0 1, aa .Move 1 0, aa .Move 0 (-1), aa .Move (-1) 0]
        back := [aa .Move 0 2, aa .Move 1 1, aa .Move 1 (-1), aa .Move (-1) (-1),
                 aa .Move (-1) 1] }
  | .Pikeman =>
      { front := [aa .Move 1 1, aa .Move 2 2, aa .Move (-1) 1, aa .Move (-2) 2]
        back := [aa .Move 0 1, aa .Strike 1 2, aa .Move 0 (-1), aa .Move 0 (-2),
                 aa .Strike (-1) 2] }
  | .Knight =>
      { front := [aa .Jump 1 2, aa .Move 1 0, aa .Move 0 (-1), aa .Move 0 (-2),
                  aa .Move (-1) 0, aa .Jump (-1) 2]
        back := [aa .Slide 0 1, aa .Move 1 (-1), aa .Move 2 (-2), aa .Move (-1) (-1),
                 aa .Move (-2) (-2)] }
  | .Bowman =>
      { front := [aa .Move 0 1, aa .Move 1 0, aa .Jump 2 0, aa .Jump 0 (-2),
                  aa .Move (-1) 0, aa .Jump (-2) 0]
        back := [aa .Move 0 1, aa .Strike 0 2, aa .Strike 1 1, aa .Move 1 (-1),
                 aa .Move (-1) (-1), aa .Strike (-1) 1] }
  | .LightHorse =>
      { front := [aa .Slide 0 1, aa .Move 1 (-1), aa .Move (-1) (-1)]
        back := [aa .Strike 1 2, aa .Jump 2 1, aa .Jump (-2) 1, aa .Strike (-1) 2] }
  | .Wizard =>
      { front := [aa .Move 0 1, aa .Move 1 1, aa .Move 1 0, aa .Move 1 (-1),
                  aa .Move 0 (-1), aa .Move (-1) (-1), aa .Move (-1) 0, aa .Move (-1) 1]
        back := [aa .Jump 0 2, aa .Jump 2 2, aa .Jump 2 0, aa .Jump 2 (-2),
                 aa .Jump 0 (-2), aa .Jump (-2) (-2), aa .Jump (-2) 0, aa .Jump (-2) 2] }
  | .Seer =>
      { front := [aa .Jump 0 2, aa .Move 1 1, aa .Jump 2 0, aa .Move 1 (-1),
                  aa .Jump 0 (-2), aa .Move (-1) (-1), aa .Jump (-2) 0, aa .Move (-1) 1]
        back := [aa .Move 0 1, aa .Jump 2 2, aa .Move 1 0, aa .Jump 2 (-2),
                 aa .Move 0 (-1), aa .Jump (-2) (-2), aa .Move (-1) 0, aa .Jump (-2) 2] }
  | .Champion =>
      { front := [aa .Move 0 1, aa .Jump 0 2, aa .Move 1 0, aa .Jump 2 0,
                  aa .Move 0 (-1), aa .Jump 0 (-2), aa .Move (-1) 0, aa .Jump (-2) 0]
        back := [aa .Strike 0 1, aa .Jump 0 2, aa .Strike 1 0, aa .Jump 2 0,
                 aa .Strike 0 (-1), aa .Jump 0 (-2), aa .Strike (-1) 0, aa .Jump (-2) 0] }
  | .Arbalist =>
      { front := [aa .Move 0 2, aa .Move 1 0, aa .Move 1 (-1), aa .Move (-1) (-1),
                  aa .Move (-1) 0]
        back := [aa .Strike 0 1, aa .Strike 0 2, aa .Jump 1 (-2), aa .Move 0 (-1),
                 aa .Jump (-1) (-2)] }
  | .General =>
      { front := [aa .Move 0 1, aa .Jump 1 2, aa .Move 2 0, aa .Move 0 (-1),
                  aa .Move (-2) 0, aa .Jump (-1) 2]
        back := [aa .Move 0 1, aa .Jump 1 2, aa .Move 1 0, aa .Move 2 0,
                 aa .Move (-1) 0, aa .Move (-2) 0, aa .Jump (-1) 2,
                 aa .Command 1 0, aa .Command 1 (-1), aa .Command 0 (-1),
                 aa .Command (-1) (-1), aa .Command (-1) 0] }
  | .Marshall =>
      { front := [aa .Jump 2 2, aa .Slide 1 0, aa .Jump 0 (-2), aa .Slide (-1) 0,
                  aa .Jump (-2) 2]
        back := [aa .Move 0 1, aa .Move 1 1, aa .Move 1 0, aa .Move 2 0,
                 aa .Move 1 (-1), aa .Move (-1) (-1), aa .Move (-1) 0, aa .Move (-2) 0,
                 aa .Move (-1) 1, aa .Command 0 1, aa .Command 1 1, aa .Command (-1) 1] }
  | .Countess =>
      { front := [aa .Move 0 1, aa .Move 2 0, aa .Move 0 (-1), aa .Move (-2) 0,
                  aa .Command 2 0, aa .Command (-1) 0]
        back := [aa .Move 0 1, aa .Move 1 0, aa .Move 0 (-2), aa .Move (-1) 0,
                 aa .Command 1 0, aa .Command (-2) 0] }
  | .Ranger =>
      { front := [aa .Slide 0 1, aa .Jump 1 2, aa .Jump 2 1, aa .Jump (-2) 1,
                  aa .Jump (-1) 2]
        back := [aa .Slide 1 1, aa .Jump 1 (-2), aa .Jump (-1) (-2), aa .Slide (-1) 1] }
  | .Sage =>
      { front := [aa .Move 0 1, aa .Move 1 (-1), aa .Move (-1) (-1)]
        back := [aa .Move 0 2, aa .Move 2 0, aa .Move 0 (-1), aa .Move (-2) 0] }
  | .RoyalAssassin =>
      { front := [aa .Move 0 (-1)]
        back := [aa .Slide 0 1, aa .Slide 1 0, aa .Slide 0 (-1), aa .Slide (-1) 0] }

/-- NO_EFFECTS from the source. -/
def NO_EFFECTS : AvailableEffects :=
  { front := [], back := [] }

/-- TILE_EFFECTS from the source: the map is created empty and nothing is
ever inserted ("Effect tiles will be added"), so every lookup misses. -/
def TILE_EFFECTS : TileType → Option AvailableEffects :=
  fun _ => none

/-- Same as TILE_ACTIONS but inverted offsets (for the white player). -/
def INVERTED_TILE_ACTIONS (k : TileType) : AvailableActions :=
  let val := TILE_ACTIONS k
  { front := val.front.map fun a => { kind := a.kind, offset := invert_offset a.offset }
    back := val.back.map fun a => { kind := a.kind, offset := invert_offset a.offset } }

/-- Same as TILE_EFFECTS but inverted offsets (for the white player); the
iteration over the empty TILE_EFFECTS map inserts nothing. -/
def INVERTED_TILE_EFFECTS : TileType → Option AvailableEffects :=
  fun _ => none

/-- Tile.actions: catalog lookup, inverted for white. -/
def Tile.actions (t : Tile) : AvailableActions :=
  if t.color = TileColor.Black then TILE_ACTIONS t.kind else INVERTED_TILE_ACTIONS t.kind

/-- Tile.effects: catalog lookup with NO_EFFECTS fallback, inverted for white. -/
def Tile.effects (t : Tile) : AvailableEffects :=
  if t.color = TileColor.Black then
    match TILE_EFFECTS t.kind with
    | some e => e
    | none => NO_EFFECTS
  else
    match INVERTED_TILE_EFFECTS t.kind with
    | some e => e
    | none => NO_EFFECTS

/-- Complete state of a duke game.  The two-element Rust arrays indexed by
`color as usize` are modelled as pairs (first component Black, second White). -/
structure GameState where
  board : List (List Square)
  bags : List Tile × List Tile
  drawn_tiles : List Tile × List Tile
  graveyard : List Tile
  ply : TileColor
  game_over : Option Winner
  dukes : Option Coordinate × Option Coordinate
deriving DecidableEq, Repr

/-- Selects the component of a color-indexed pair. -/
def pick {α : Type} (p : α × α) (c : TileColor) : α :=
  match c with
  | .Black => p.1
  | .White => p.2

/-- Replaces the component of a color-indexed pair. -/
def setPick {α : Type} (p : α × α) (c : TileColor) (v : α) : α × α :=
  match c with
  | .Black => (v, p.2)
  | .White => (p.1, v)

/-- The opposite color (the ply update at the end of do_unsafe_action). -/
def opposite (c : TileColor) : TileColor :=
  match c with
  | .Black => .White
  | .White => .Black

/-- GameState::init_tiles: the initial bag contents for one color, in push
order (the comments in the source are off by one for Knight and Bowman; the
pushes themselves put Knight before Bowman). -/
def GameState.init_tiles (color : TileColor) : List Tile :=
  [Tile.mk' .Footman color,
   Tile.mk' .Pikeman color, Tile.mk' .Pikeman color, Tile.mk' .Pikeman color,
   Tile.mk' .Knight color,
   Tile.mk' .Bowman color,
   Tile.mk' .LightHorse color,
   Tile.mk' .Wizard color,
   Tile.mk' .Seer color,
   Tile.mk' .Champion color,
   Tile.mk' .Arbalist color,
   Tile.mk' .General color,
   Tile.mk' .Marshall color,
   Tile.mk' .Countess color,
   Tile.mk' .Ranger color,
   Tile.mk' .Sage color,
   Tile.mk' .RoyalAssassin color]

/-- Empty 6 times 6 board. -/
def emptyBoard : List (List Square) :=
  List.replicate HEIGHT (List.replicate WIDTH Square.default)

/-- GameState::new: initial game state.  The drawn queues are pushed in the
order Footman, Footman, Duke, so the vector pop order is Duke first. -/
def GameState.new : GameState :=
  { board := emptyBoard
    bags := (GameState.init_tiles .Black, GameState.init_tiles .White)
    drawn_tiles :=
      ([Tile.mk' .Footman .Black, Tile.mk' .Footman .Black, Tile.mk' .Duke .Black],
       [Tile.mk' .Footman .White, Tile.mk' .Footman .White, Tile.mk' .Duke .White])
    graveyard := []
    ply := .Black
    game_over := none
    dukes := (none, none) }

/-- GameState::bag: the bag for the current ply. -/
def GameState.bag (s : GameState) : List Tile :=
  pick s.bags s.ply

/-- GameState::drawn: the drawn queue for the current ply. -/
def GameState.drawn (s : GameState) : List Tile :=
  pick s.drawn_tiles s.ply

/-- GameState::own_duke_pos. -/
def GameState.own_duke_pos (s : GameState) : Option Coordinate :=
  pick s.dukes s.ply

/-- GameState::opponent_duke_pos. -/
def GameState.opponent_duke_pos (s : GameState) : Option Coordinate :=
  pick s.dukes (opposite s.ply)

/-- GameState::square: board indexing board[y][x].  Out-of-range indices
cannot occur in source runs (u8 coordinates are validated before use); they
are mapped to the default square. -/
def GameState.square (s : GameState) (cord : Coordinate) : Square :=
  ((s.board.getD cord.y []).getD cord.x Square.default)

/-- Functional update of one square (the mut_square borrow of the source). -/
def GameState.setSquare (s : GameState) (cord : Coordinate) (sq : Square) : GameState :=
  { s with board := s.board.set cord.y ((s.board.getD cord.y []).set cord.x sq) }

/-- Writes the tile slot of one square, preserving its effects. -/
def GameState.setTile (s : GameState) (cord : Coordinate) (t : Option Tile) : GameState :=
  s.setSquare cord { s.square cord with tile := t }

/-- Writes the bag of the current ply. -/
def GameState.setBag (s : GameState) (l : List Tile) : GameState :=
  { s with bags := setPick s.bags s.ply l }

/-- Writes the drawn queue of the current ply. -/
def GameState.setDrawn (s : GameState) (l : List Tile) : GameState :=
  { s with drawn_tiles := setPick s.drawn_tiles s.ply l }

/-- Writes the cached duke position of the current ply. -/
def GameState.setOwnDuke (s : GameState) (p : Option Coordinate) : GameState :=
  { s with dukes := setPick s.dukes s.ply p }

/-- Writes the cached duke position of the opponent of the current ply. -/
def GameState.setOpponentDuke (s : GameState) (p : Option Coordinate) : GameState :=
  { s with dukes := setPick s.dukes (opposite s.ply) p }

/-- Appends a captured tile to the graveyard. -/
def graveyardPush (s : GameState) (t : Tile) : GameState :=
  { s with graveyard := s.graveyard ++ [t] }

/-- Check if square effects prevent tile from doing anything at all
(tile_can_act in the source). -/
def tile_can_act (state : GameState) (tpos : Coordinate) (t : Tile) : Bool :=
  if (state.square tpos).effects.contains Effect.Dread ∧ t.kind ≠ TileType.Duke then
    false
  else
    true

/-- Check if path between two coordinates is straight (straight_path). -/
def straight_path (start e : Coordinate) : Bool :=
  if start.x = e.x ∨ start.y = e.y then
    true
  else if ((e.x : Int) - start.x).natAbs = ((e.y : Int) - start.y).natAbs then
    true
  else
    false

/-- Straight branch of the path_blocked loop.  Steps the cursor first, then
checks Defence, interior blocking for Move, and the same-color rule on the
end square, exactly in source order.  The fuel bounds the otherwise
unbounded Rust loop; it is never exhausted when the walk reaches the end
square within fuel steps. -/
def walkStraight (state : GameState) (tile_color : TileColor) (action_type : ActionType)
    (e : Coordinate) (dir : Direction) : Nat → Coordinate → Bool
  | 0, _ => false
  | fuel + 1, cord0 =>
    let cord : Coordinate := ⟨u8OfI8 (cord0.x + dir.x), u8OfI8 (cord0.y + dir.y)⟩
    let square := state.square cord
    if square.effects.contains Effect.Defence then
      true
    else if cord ≠ e then
      if action_type = ActionType.Move ∧ square.tile.isSome then
        true
      else
        walkStraight state tile_color action_type e dir fuel cord
    else
      match square.tile with
      | some t => tile_color = t.color
      | none => false

/-- Second axis of the non-straight branch of path_blocked. -/
def walkSecondAxis (state : GameState) (tile_color : TileColor) (action_type : ActionType)
    (e : Coordinate) (dir : Direction) (x_first : Bool) : Nat → Coordinate → Bool
  | 0, _ => false
  | fuel + 1, cord0 =>
    let cord : Coordinate :=
      if x_first then { cord0 with y := u8OfI8 (cord0.y + dir.y) }
      else { cord0 with x := u8OfI8 (cord0.x + dir.x) }
    let square := state.square cord
    if square.effects.contains Effect.Defence then
      true
    else if (x_first ∧ cord.y ≠ e.y) ∨ (¬(x_first = true) ∧ cord.x ≠ e.x) then
      if action_type = ActionType.Move ∧ square.tile.isSome then
        true
      else
        walkSecondAxis state tile_color action_type e dir x_first fuel cord
    else
      match square.tile with
      | some t => tile_color = t.color
      | none => false

/-- First axis of the non-straight branch of path_blocked; hands over to the
second axis when the leading coordinate reaches the end value. -/
def walkFirstAxis (state : GameState) (tile_color : TileColor) (action_type : ActionType)
    (e : Coordinate) (dir : Direction) (x_first : Bool) : Nat → Coordinate → Bool
  | 0, _ => false
  | fuel + 1, cord0 =>
    let cord : Coordinate :=
      if x_first then { cord0 with x := u8OfI8 (cord0.x + dir.x) }
      else { cord0 with y := u8OfI8 (cord0.y + dir.y) }
    let square := state.square cord
    if square.effects.contains Effect.Defence then
      true
    else if action_type = ActionType.Move ∧ square.tile.isSome then
      true
    else if (x_first ∧ cord.x = e.x) ∨ (¬(x_first = true) ∧ cord.y = e.y) then
      walkSecondAxis state tile_color action_type e dir x_first fuel cord
    else
      walkFirstAxis state tile_color action_type e dir x_first fuel cord

/-- Check if path between two coordinates is blocked (path_blocked).  Checks
from the square adjacent to start up to and including the end square. -/
def path_blocked (state : GameState) (tile_color : TileColor) (action_type : ActionType)
    (start e : Coordinate) : Bool :=
  let dir := get_direction start e
  if straight_path start e then
    walkStraight state tile_color action_type e dir 64 start
  else
    walkFirstAxis state tile_color action_type e dir true 64 start &&
      walkFirstAxis state tile_color action_type e dir false 64 start

/-- Get legal move action if any (get_move_action). -/
def get_move_action (state : GameState) (tpos : Coordinate) (t : Tile)
    (target : Coordinate) : Option Action :=
  if path_blocked state t.color ActionType.Move tpos target then
    none
  else
    match (state.square target).tile with
    | some blocking =>
      if t.color ≠ blocking.color then
        some (Action.Move { tile_pos := tpos, target_pos := target, result := .Capture })
      else
        none
    | none => some (Action.Move { tile_pos := tpos, target_pos := target, result := .Move })

/-- Loop of get_slide_actions: every walked empty square yields one action,
a hostile blocker yields a final capture, Defence or a friendly blocker or
the board edge stops the walk. -/
def slideLoop (state : GameState) (tpos : Coordinate) (t : Tile) (jumpslide : Bool)
    (dir : Direction) : Nat → Nat → Nat → List Action
  | 0, _, _ => []
  | fuel + 1, x, y =>
    if x < WIDTH ∧ y < HEIGHT then
      let square := state.square ⟨x, y⟩
      if square.effects.contains Effect.Defence then
        []
      else
        match square.tile with
        | some blocking =>
          if t.color ≠ blocking.color then
            if jumpslide then
              [Action.JumpSlide { tile_pos := tpos, target_pos := ⟨x, y⟩, result := .Capture }]
            else
              [Action.Slide { tile_pos := tpos, target_pos := ⟨x, y⟩, result := .Capture }]
          else
            []
        | none =>
          (if jumpslide then
            Action.JumpSlide { tile_pos := tpos, target_pos := ⟨x, y⟩, result := .Move }
          else
            Action.Slide { tile_pos := tpos, target_pos := ⟨x, y⟩, result := .Move }) ::
          slideLoop state tpos t jumpslide dir fuel (u8OfI8 (x + dir.x)) (u8OfI8 (y + dir.y))
    else
      []

/-- Get slide or jumpslide actions (get_slide_actions). -/
def get_slide_actions (state : GameState) (tpos : Coordinate) (t : Tile)
    (jumpslide : Bool) (start : Coordinate) : List Action :=
  let dir := get_direction tpos start
  if jumpslide ∧ path_blocked state t.color ActionType.Jump tpos start then
    []
  else
    slideLoop state tpos t jumpslide dir 64 start.x start.y

/-- Get legal jump action, if any (get_jump_action). -/
def get_jump_action (state : GameState) (tpos : Coordinate) (t : Tile)
    (target : Coordinate) : Option Action :=
  if path_blocked state t.color ActionType.Jump tpos target then
    none
  else
    match (state.square target).tile with
    | some blocking =>
      if t.color ≠ blocking.color then
        some (Action.Jump { tile_pos := tpos, target_pos := target, result := .Capture })
      else
        none
    | none => some (Action.Jump { tile_pos := tpos, target_pos := target, result := .Move })

/-- Get legal strike action, if any (get_strike_action): empty target yields
nothing. -/
def get_strike_action (state : GameState) (tpos : Coordinate) (t : Tile)
    (target : Coordinate) : Option Action :=
  if path_blocked state t.color ActionType.Jump tpos target then
    none
  else
    match (state.square target).tile with
    | some blocking =>
      if t.color ≠ blocking.color then
        some (Action.Strike { tile_pos := tpos, target_pos := target, result := .Capture })
      else
        none
    | none => none

/-- Get command actions (get_command_actions): the commanded tile sits on
target and must share the commander color; every Command offset square of
the commander that is empty or hostile yields one action. -/
def get_command_actions (state : GameState) (tpos : Coordinate) (t : Tile)
    (target : Coordinate) : List Action :=
  match (state.square target).tile with
  | none => []
  | some cmdTile =>
    if cmdTile.color ≠ t.color then
      []
    else
      let avail := if t.flipped then (Tile.actions t).back else (Tile.actions t).front
      let command_squares : List Coordinate := avail.filterMap fun a =>
        if a.kind = ActionType.Command then
          let x := u8OfI8 (tpos.x + a.offset.x)
          let y := u8OfI8 (tpos.y + a.offset.y)
          if Coordinate.legal x y then some ⟨x, y⟩ else none
        else
          none
      command_squares.filterMap fun cord =>
        match (state.square cord).tile with
        | some tt =>
          if tt.color ≠ t.color then
            some (Action.Command { tile_pos := tpos, command_tile_pos := target,
                                   target_pos := cord, result := .Capture })
          else
            none
        | none =>
          some (Action.Command { tile_pos := tpos, command_tile_pos := target,
                                 target_pos := cord, result := .Move })

/-- Spawn squares (get_spawn_squares).  While the duke is undeployed the two
fixed opening squares are returned without an occupancy check; the source
panics ("Should be game over") when the duke is undeployed and the drawn
queue does not end in a duke, which is modelled as no spawn squares. -/
def get_spawn_squares (state : GameState) : List Coordinate :=
  if state.game_over.isSome then
    []
  else
    match state.own_duke_pos with
    | none =>
      match state.drawn.getLast? with
      | some t =>
        if t.kind = TileType.Duke then
          if state.ply = TileColor.Black then
            [⟨2, 0⟩, ⟨3, 0⟩]
          else
            [⟨2, HEIGHT - 1⟩, ⟨3, HEIGHT - 1⟩]
        else
          []
      | none => []
    | some duke_pos =>
      let check_n_add : Int → Int → List Coordinate := fun x y =>
        if Coordinate.legal (u8OfI8 x) (u8OfI8 y) then
          let cord : Coordinate := ⟨u8OfI8 x, u8OfI8 y⟩
          if (state.square cord).tile.isNone then [cord] else []
        else
          []
      check_n_add ((duke_pos.x : Int) + 1) (duke_pos.y : Int) ++
        check_n_add ((duke_pos.x : Int) - 1) (duke_pos.y : Int) ++
        check_n_add (duke_pos.x : Int) ((duke_pos.y : Int) + 1) ++
        check_n_add (duke_pos.x : Int) ((duke_pos.y : Int) - 1)

/-- Get tile actions (get_tile_actions). -/
def get_tile_actions (state : GameState) (tile_pos : Coordinate) : List Action :=
  if state.game_over.isSome then
    []
  else
    match (state.square tile_pos).tile with
    | none => []
    | some tile =>
      if tile_can_act state tile_pos tile = false then
        []
      else
        let avail := if tile.flipped then (Tile.actions tile).back else (Tile.actions tile).front
        avail.flatMap fun action =>
          let x := u8OfI8 (tile_pos.x + action.offset.x)
          let y := u8OfI8 (tile_pos.y + action.offset.y)
          if Coordinate.legal x y = false then
            []
          else
            let target : Coordinate := ⟨x, y⟩
            match action.kind with
            | .Move => (get_move_action state tile_pos tile target).toList
            | .Jump => (get_jump_action state tile_pos tile target).toList
            | .JumpSlide => get_slide_actions state tile_pos tile true target
            | .Slide => get_slide_actions state tile_pos tile false target
            | .Command => get_command_actions state tile_pos tile target
            | .Strike => (get_strike_action state tile_pos tile target).toList
            | _ => []

/-- Get possible actions for a given game state (get_actions). -/
def get_actions (state : GameState) : List Action :=
  if state.game_over.isSome then
    []
  else
    let spawn_squares := get_spawn_squares state
    if state.drawn ≠ [] then
      spawn_squares.map Action.PlaceNew
    else
      (if spawn_squares ≠ [] ∧ state.bag ≠ [] then [Action.NewFromBag] else []) ++
        (List.range HEIGHT).flatMap fun y =>
          (List.range WIDTH).flatMap fun x =>
            match (state.square ⟨x, y⟩).tile with
            | some tile =>
              if tile.color = state.ply then get_tile_actions state ⟨x, y⟩ else []
            | none => []

/-- Vec::swap_remove with a valid index: the element at i is replaced by the
last element and the last slot is dropped.  On an out-of-range index the
list is returned unchanged (callers guard the index). -/
def swapRemoveD {α : Type} (l : List α) (i : Nat) : List α :=
  match l.getLast? with
  | none => l
  | some last => (l.set i last).dropLast

/-- Adds the effect projections of the tile standing on tile_pos
(add_tile_effects).  Requires a tile on the square (the source expects). -/
def add_tile_effects (state : GameState) (tile_pos : Coordinate) : Option GameState :=
  match (state.square tile_pos).tile with
  | none => none
  | some tile =>
    let effects := if !tile.flipped then (Tile.effects tile).front else (Tile.effects tile).back
    some (effects.foldl (fun st effect =>
      let ex := u8OfI8 (tile_pos.x + effect.offset.x)
      let ey := u8OfI8 (tile_pos.y + effect.offset.y)
      if Coordinate.legal ex ey then
        st.setSquare ⟨ex, ey⟩
          { st.square ⟨ex, ey⟩ with
            effects := (st.square ⟨ex, ey⟩).effects ++ [effect.kind] }
      else
        st) state)

/-- Removes one occurrence of each projected effect kind of the tile on
tile_pos (clear_tile_effects), using unordered swap removal. -/
def clear_tile_effects (state : GameState) (tile_pos : Coordinate) : Option GameState :=
  match (state.square tile_pos).tile with
  | none => none
  | some tile =>
    let effects := if !tile.flipped then (Tile.effects tile).front else (Tile.effects tile).back
    some (effects.foldl (fun st effect =>
      let ex := u8OfI8 (tile_pos.x + effect.offset.x)
      let ey := u8OfI8 (tile_pos.y + effect.offset.y)
      if Coordinate.legal ex ey then
        let square_effects := (st.square ⟨ex, ey⟩).effects
        match square_effects.findIdx? (fun k => k = effect.kind) with
        | some i =>
          st.setSquare ⟨ex, ey⟩
            { st.square ⟨ex, ey⟩ with effects := swapRemoveD square_effects i }
        | none => st
      else
        st) state)

/-- The closure standard_action of do_unsafe_action: flips the moving tile,
clears and re-adds its effects, performs the capture bookkeeping, and
updates the duke caches. -/
def standard_action (state : GameState) (data : ActionData) : Option GameState := do
  let tile0 ← (state.square data.tile_pos).tile
  if tile0.color = state.ply then
    let st1 ← clear_tile_effects state data.tile_pos
    let tile := tile0.flip
    let st2 := st1.setTile data.tile_pos none
    let st5 ←
      if data.result = ActionResult.Capture then do
        let st3 ← clear_tile_effects st2 data.target_pos
        let captured ← (st3.square data.target_pos).tile
        let st3b := if captured.kind = TileType.Duke then st3.setOpponentDuke none else st3
        let st4 := { st3b with graveyard := st3b.graveyard ++ [captured] }
        pure (st4.setTile data.target_pos (some tile))
      else
        pure (st2.setTile data.target_pos (some tile))
    let st6 ← add_tile_effects st5 data.target_pos
    pure (if tile.kind = TileType.Duke then st6.setOwnDuke (some data.target_pos) else st6)
  else
    none

/-- Command branch of do_unsafe_action.  Note two source quirks kept here:
the commander square effects are cleared twice (the commanded square is
never cleared), and the duke cache of the moving side is not updated even
when the commanded tile is the duke. -/
def command_action (state : GameState) (data : CommandActionData) : Option GameState := do
  let commander0 ← (state.square data.tile_pos).tile
  if commander0.color = state.ply then
    let tile ← (state.square data.command_tile_pos).tile
    let st1 ← clear_tile_effects state data.tile_pos
    let st2 ← clear_tile_effects st1 data.tile_pos
    let st3 := st2.setTile data.command_tile_pos none
    let st6 ←
      if data.result = ActionResult.Capture then do
        let st4 ← clear_tile_effects st3 data.target_pos
        let captured ← (st4.square data.target_pos).tile
        let st4b := if captured.kind = TileType.Duke then st4.setOpponentDuke none else st4
        let st5 := { st4b with graveyard := st4b.graveyard ++ [captured] }
        pure (st5.setTile data.target_pos (some tile))
      else
        pure (st3.setTile data.target_pos (some tile))
    let commander ← (st6.square data.tile_pos).tile
    let st7 := st6.setTile data.tile_pos (some commander.flip)
    let st8 ← add_tile_effects st7 data.tile_pos
    add_tile_effects st8 data.target_pos
  else
    none

/-- Strike branch of do_unsafe_action: ranged capture, the striker flips in
place. -/
def strike_action (state : GameState) (data : ActionData) : Option GameState := do
  let striker0 ← (state.square data.tile_pos).tile
  if striker0.color = state.ply then
    let st1 ← clear_tile_effects state data.target_pos
    let captured ← (st1.square data.target_pos).tile
    let st1b := if captured.kind = TileType.Duke then st1.setOpponentDuke none else st1
    let st2 := { st1b with graveyard := st1b.graveyard ++ [captured] }
    let st3 := st2.setTile data.target_pos none
    let st4 ← clear_tile_effects st3 data.tile_pos
    let striker ← (st4.square data.tile_pos).tile
    let st5 := st4.setTile data.tile_pos (some striker.flip)
    add_tile_effects st5 data.tile_pos
  else
    none

/-- Ply switch and terminal check at the tail of do_unsafe_action: the
newly-to-move side loses when its duke is absent and not recoverable from
the drawn queue, or when it has no legal action. -/
def finish_turn (state : GameState) : GameState :=
  let state := { state with ply := opposite state.ply }
  if state.own_duke_pos.isNone then
    match state.drawn.getLast? with
    | some t =>
      if t.kind = TileType.Duke then
        state
      else
        { state with game_over := some (Winner.Color (opposite state.ply)) }
    | none => { state with game_over := some (Winner.Color (opposite state.ply)) }
  else if get_actions state = [] then
    { state with game_over := some (Winner.Color (opposite state.ply)) }
  else
    state

/-- Move application (do_unsafe_action).  The action is assumed to come from
get_actions on the same state; a Rust panic on a violated assumption is
modelled as none.  rndIdx is the index floor(random * bag.len) sampled by
the injected RNG for the NewFromBag draw; it is ignored by every other
branch. -/
def do_unsafe_action (state : GameState) (action : Action) (rndIdx : Nat) :
    Option GameState :=
  match action with
  | .NewFromBag =>
    match state.bag.get? rndIdx with
    | none => none
    | some tile =>
      let st := state.setBag (swapRemoveD state.bag rndIdx)
      some (st.setDrawn (st.drawn ++ [tile]))
  | .PlaceNew cord => do
    let tile ← state.drawn.getLast?
    let st := state.setDrawn state.drawn.dropLast
    if tile.color = state.ply then
      let st := if tile.kind = TileType.Duke then st.setOwnDuke (some cord) else st
      let st := st.setTile cord (some tile)
      let st ← add_tile_effects st cord
      pure (finish_turn st)
    else
      none
  | .Move d => (standard_action state d).map finish_turn
  | .Jump d => (standard_action state d).map finish_turn
  | .JumpSlide d => (standard_action state d).map finish_turn
  | .Slide d => (standard_action state d).map finish_turn
  | .Command d => (command_action state d).map finish_turn
  | .Strike d => (strike_action state d).map finish_turn

/-- Same as do_unsafe_action but on a copy (do_unsafe_action_copy); with
value semantics the clone followed by the in-place update is the same
function. -/
def do_unsafe_action_copy (state : GameState) (action : Action) (rndIdx : Nat) :
    Option GameState :=
  do_unsafe_action state action rndIdx

/-- Alpha-beta agent (ai/alpha_beta.rs).  Duration is abstracted to an
opaque numeric deadline: only its presence matters inside the embedding,
because the wall clock itself is outside the model. -/
structure Agent where
  color : TileColor
  depth : Option Nat
  duration : Option Nat
deriving DecidableEq, Repr

/-- The i32 minimum used to seed the maximizer. -/
def I32_MIN : Int := -2147483648

/-- The i32 maximum used to seed the minimizer. -/
def I32_MAX : Int := 2147483647

/-- Fallback tile standing in for the value of an unwrap that would panic in
the source; action_cmp only dereferences the captured tile of a capture
action, which exists for every action produced by get_actions. -/
def dummyTile : Tile := Tile.mk' .Duke .Black

/-- Naive utility of a list of available actions (the closure inside
tile_utility). -/
def utility_from_actions (actions : List AvailableAction) : Int :=
  actions.foldl
    (fun u a =>
      match a.kind with
      | .Move => u + 1
      | .Jump => u + 3
      | .JumpSlide => u + 4
      | .Slide => u + 2
      | .Command => u + 2
      | .Strike => u + 3
      | _ => u) 0

/-- Naive utility of a list of available effects (the closure inside
tile_utility). -/
def utility_from_effects (effects : List AvailableEffect) : Int :=
  effects.foldl
    (fun u e =>
      match e.kind with
      | .Dread => u + 1
      | .Defence => u + 3) 0

/-- Naive effort to calculate utility of tile type (tile_utility). -/
def tile_utility (kind : TileType) : Int :=
  if kind = TileType.Duke then
    1000
  else
    let u := utility_from_actions (TILE_ACTIONS kind).front +
      utility_from_actions (TILE_ACTIONS kind).back
    match TILE_EFFECTS kind with
    | some e => u + utility_from_effects e.front + utility_from_effects e.back
    | none => u

/-- TILE_UTILITY: the startup map holding tile_utility for every tile type.
The Rust map contains an entry for every TileType, so lookups always hit. -/
def TILE_UTILITY : TileType → Int :=
  tile_utility

/-- Compare heuristics of two actions (action_cmp).  The source receives
(&GameState, Action) pairs and reads the state out of the left pair. -/
def action_cmp (pa pb : GameState × Action) : Ordering :=
  let state := pa.1
  match pa.2 with
  | .NewFromBag =>
    match pb.2 with
    | .NewFromBag => .eq
    | .PlaceNew _ => .lt
    | .Move r | .Jump r | .JumpSlide r | .Slide r | .Strike r =>
      if r.result = ActionResult.Capture then .lt else .eq
    | .Command r =>
      if r.result = ActionResult.Capture then .lt else .eq
  | .PlaceNew _ =>
    match pb.2 with
    | .PlaceNew _ => .eq
    | _ => .gt
  | a =>
    let lData : ActionResult × Coordinate :=
      match a with
      | .Move l | .Jump l | .Slide l | .JumpSlide l | .Strike l => (l.result, l.target_pos)
      | .Command l => (l.result, l.target_pos)
      | _ => (ActionResult.Move, ⟨0, 0⟩)
    match pb.2 with
    | .PlaceNew _ => .lt
    | .NewFromBag => .eq
    | b =>
      let rData : ActionResult × Coordinate :=
        match b with
        | .Move r | .Jump r | .Slide r | .JumpSlide r | .Strike r => (r.result, r.target_pos)
        | .Command r => (r.result, r.target_pos)
        | _ => (ActionResult.Move, ⟨0, 0⟩)
      if lData.1 = ActionResult.Capture then
        let l_capture_tile := ((state.square lData.2).tile).getD dummyTile
        if rData.1 = ActionResult.Capture then
          let r_capture_tile := ((state.square rData.2).tile).getD dummyTile
          if TILE_UTILITY l_capture_tile.kind < TILE_UTILITY r_capture_tile.kind then
            .lt
          else if TILE_UTILITY r_capture_tile.kind < TILE_UTILITY l_capture_tile.kind then
            .gt
          else
            .eq
        else
          .lt
      else
        .eq

/-- The check_mate closure of utility. -/
def check_mate (agent : Agent) (state : GameState) (result : ActionResult)
    (target_pos : Coordinate) : Int :=
  if result = ActionResult.Capture then
    match (state.square target_pos).tile with
    | some tile =>
      if tile.kind = TileType.Duke then
        if tile.color = agent.color then
          if state.ply = agent.color then -1000 else -100000
        else
          if state.ply = agent.color then 100000 else 1000
      else
        0
    | none => 0
  else
    0

/-- Inner loop of utility over the actions of one board tile; Except.error
models the short-circuit return once the check-mate bound is reached. -/
def utilActLoop (agent : Agent) (state : GameState) : Int → List Action → Except Int Int
  | u, [] => .ok u
  | u, a :: rest =>
    let u :=
      match a with
      | .Move ad | .Jump ad | .JumpSlide ad | .Slide ad | .Strike ad =>
        u + check_mate agent state ad.result ad.target_pos
      | .Command cd => u + check_mate agent state cd.result cd.target_pos
      | _ => u
    if 100000 ≤ u.natAbs then .error u else utilActLoop agent state u rest

/-- Outer loop of utility over all board squares in row-major order. -/
def utilSquareLoop (agent : Agent) (state : GameState) : Int → List Coordinate → Except Int Int
  | u, [] => .ok u
  | u, cord :: rest =>
    match (state.square cord).tile with
    | none => utilSquareLoop agent state u rest
    | some tile =>
      match utilActLoop agent state u (get_tile_actions state cord) with
      | .error v => .error v
      | .ok u =>
        let u :=
          if tile.color = agent.color then u + TILE_UTILITY tile.kind
          else u - TILE_UTILITY tile.kind
        utilSquareLoop agent state u rest

/-- Evaluation function with naive heuristics (utility). -/
def utility (agent : Agent) (state : GameState) : Int :=
  match state.game_over with
  | some (Winner.Color c) => if c = agent.color then 1000000 else -1000000
  | none =>
    let coords := (List.range HEIGHT).flatMap fun y =>
      (List.range WIDTH).map fun x => (⟨x, y⟩ : Coordinate)
    match utilSquareLoop agent state 0 coords with
    | .error v => v
    | .ok u => u + (get_spawn_squares state).length * 5

/-- The type of the depth-decremented recursive search call that the three
helpers below feed back into; passing it explicitly makes the recursion of
the search structural on the depth. -/
def RecF : Type :=
  GameState → Int → Int → Option Bool → Bool → Bool → Option Action × Int

/-- One candidate branch of the search (try_branch).  NewFromBag is not
recursed into: its value is the average bag tile utility plus the state
utility.  Other actions are applied on a copy and searched (recf is
alpha_beta at the decremented depth); the application always succeeds on
actions coming from get_actions, and the arbitrary fallback state is never
reached in such calls. -/
def try_branch (recf : RecF) (agent : Agent) (state : GameState) (alpha beta : Int)
    (timer : Option Bool) (max : Bool) (action : Action) : Option Action × Int :=
  match action with
  | .NewFromBag =>
    let u := state.bag.foldl (fun u t => u + TILE_UTILITY t.kind) 0
    let u := u / (state.bag.length : Int)
    (none, u + utility agent state)
  | _ =>
    let new_state := (do_unsafe_action_copy state action 0).getD state
    recf new_state alpha beta timer max false

/-- Maximizer loop of alpha_beta over the sorted action list, carrying
new_alpha, the best action and the best utility; stops early on beta
cutoff. -/
def abMaxLoop (recf : RecF) (agent : Agent) (state : GameState) (beta : Int)
    (timer : Option Bool) (new_alpha : Int) (best_action : Option Action)
    (best_utility : Int) : List (GameState × Action) → Option Action × Int
  | [] => (best_action, best_utility)
  | (_, action) :: rest =>
    let r := try_branch recf agent state new_alpha beta timer false action
    let u := r.2
    let best_action1 := if u > best_utility then some action else best_action
    let best_utility1 := if u > best_utility then u else best_utility
    let new_alpha1 := if best_utility1 > new_alpha then best_utility1 else new_alpha
    if best_utility1 ≥ beta then
      (best_action1, best_utility1)
    else
      abMaxLoop recf agent state beta timer new_alpha1 best_action1 best_utility1 rest

/-- Minimizer loop of alpha_beta, carrying new_beta; stops early on alpha
cutoff. -/
def abMinLoop (recf : RecF) (agent : Agent) (state : GameState) (alpha : Int)
    (timer : Option Bool) (new_beta : Int) (best_action : Option Action)
    (best_utility : Int) : List (GameState × Action) → Option Action × Int
  | [] => (best_action, best_utility)
  | (_, action) :: rest =>
    let r := try_branch recf agent state alpha new_beta timer true action
    let u := r.2
    let best_action1 := if u < best_utility then some action else best_action
    let best_utility1 := if u < best_utility then u else best_utility
    let new_beta1 := if best_utility1 < new_beta then best_utility1 else new_beta
    if best_utility1 ≤ alpha then
      (best_action1, best_utility1)
    else
      abMinLoop recf agent state alpha timer new_beta1 best_action1 best_utility1 rest

/-- Alpha-beta recursion (alpha_beta).  The wall-clock deadline test at the
head of the source function is abstracted into the Boolean carried by
timer: some true means the deadline has passed.  The u8 depth is a Nat and
bounds the recursion, which is structural on it. -/
def alpha_beta (agent : Agent) (state : GameState) (alpha beta : Int) (depth : Nat)
    (timer : Option Bool) (max : Bool) (first_call : Bool) : Option Action × Int :=
  if timer = some true then
    (none, utility agent state)
  else
    match depth, state.game_over with
    | 0, _ => (none, utility agent state)
    | _ + 1, some _ => (none, utility agent state)
    | d + 1, none =>
      let recf : RecF := fun st a b t m f => alpha_beta agent st a b d t m f
      let actions := List.insertionSort
        (fun x y => action_cmp x y ≠ Ordering.gt)
        ((get_actions state).map fun a => (state, a))
      if max then
        abMaxLoop recf agent state beta timer alpha none I32_MIN actions
      else
        abMinLoop recf agent state alpha timer beta none I32_MAX actions

/-- Top level of the search (alpha_beta_search): default depth 4 when the
agent has no depth bound; a timer is created exactly when the agent has a
duration.  The timedOut flag stands for whether the wall clock passes the
deadline during this run. -/
def alpha_beta_search (agent : Agent) (state : GameState) (timedOut : Bool) : Option Action :=
  let depth := match agent.depth with
    | some d => d
    | none => 4
  match agent.duration with
  | some _ => (alpha_beta agent state I32_MIN I32_MAX depth (some timedOut) true true).1
  | none => (alpha_beta agent state I32_MIN I32_MAX depth none true true).1

/-- Returns action from the alpha-beta search (get_action). -/
def get_action (agent : Agent) (state : GameState) (timedOut : Bool) : Option Action :=
  alpha_beta_search agent state timedOut

/-! Helper lemmas about the state setters. -/

@[simp] theorem setSquare_ply (s : GameState) (c : Coordinate) (sq : Square) :
    (s.setSquare c sq).ply = s.ply := rfl

@[simp] theorem setSquare_bags (s : GameState) (c : Coordinate) (sq : Square) :
    (s.setSquare c sq).bags = s.bags := rfl

@[simp] theorem setSquare_drawn_tiles (s : GameState) (c : Coordinate) (sq : Square) :
    (s.setSquare c sq).drawn_tiles = s.drawn_tiles := rfl

@[simp] theorem setSquare_graveyard (s : GameState) (c : Coordinate) (sq : Square) :
    (s.setSquare c sq).graveyard = s.graveyard := rfl

@[simp] theorem setSquare_dukes (s : GameState) (c : Coordinate) (sq : Square) :
    (s.setSquare c sq).dukes = s.dukes := rfl

@[simp] theorem setSquare_game_over (s : GameState) (c : Coordinate) (sq : Square) :
    (s.setSquare c sq).game_over = s.game_over := rfl

@[simp] theorem setTile_ply (s : GameState) (c : Coordinate) (t : Option Tile) :
    (s.setTile c t).ply = s.ply := rfl

@[simp] theorem setTile_bags (s : GameState) (c : Coordinate) (t : Option Tile) :
    (s.setTile c t).bags = s.bags := rfl

@[simp] theorem setTile_drawn_tiles (s : GameState) (c : Coordinate) (t : Option Tile) :
    (s.setTile c t).drawn_tiles = s.drawn_tiles := rfl

@[simp] theorem setTile_graveyard (s : GameState) (c : Coordinate) (t : Option Tile) :
    (s.setTile c t).graveyard = s.graveyard := rfl

@[simp] theorem setTile_dukes (s : GameState) (c : Coordinate) (t : Option Tile) :
    (s.setTile c t).dukes = s.dukes := rfl

@[simp] theorem setTile_game_over (s : GameState) (c : Coordinate) (t : Option Tile) :
    (s.setTile c t).game_over = s.game_over := rfl

@[simp] theorem setBag_ply (s : GameState) (l : List Tile) :
    (s.setBag l).ply = s.ply := rfl

@[simp] theorem setBag_board (s : GameState) (l : List Tile) :
    (s.setBag l).board = s.board := rfl

@[simp] theorem setBag_drawn_tiles (s : GameState) (l : List Tile) :
    (s.setBag l).drawn_tiles = s.drawn_tiles := rfl

@[simp] theorem setBag_graveyard (s : GameState) (l : List Tile) :
    (s.setBag l).graveyard = s.graveyard := rfl

@[simp] theorem setBag_dukes (s : GameState) (l : List Tile) :
    (s.setBag l).dukes = s.dukes := rfl

@[simp] theorem setBag_game_over (s : GameState) (l : List Tile) :
    (s.setBag l).game_over = s.game_over := rfl

@[simp] theorem setDrawn_ply (s : GameState) (l : List Tile) :
    (s.setDrawn l).ply = s.ply := rfl

@[simp] theorem setDrawn_board (s : GameState) (l : List Tile) :
    (s.setDrawn l).board = s.board := rfl

@[simp] theorem setDrawn_bags (s : GameState) (l : List Tile) :
    (s.setDrawn l).bags = s.bags := rfl

@[simp] theorem setDrawn_graveyard (s : GameState) (l : List Tile) :
    (s.setDrawn l).graveyard = s.graveyard := rfl

@[simp] theorem setDrawn_dukes (s : GameState) (l : List Tile) :
    (s.setDrawn l).dukes = s.dukes := rfl

@[simp] theorem setDrawn_game_over (s : GameState) (l : List Tile) :
    (s.setDrawn l).game_over = s.game_over := rfl

@[simp] theorem setOwnDuke_ply (s : GameState) (p : Option Coordinate) :
    (s.setOwnDuke p).ply = s.ply := rfl

@[simp] theorem setOwnDuke_board (s : GameState) (p : Option Coordinate) :
    (s.setOwnDuke p).board = s.board := rfl

@[simp] theorem setOwnDuke_bags (s : GameState) (p : Option Coordinate) :
    (s.setOwnDuke p).bags = s.bags := rfl

@[simp] theorem setOwnDuke_drawn_tiles (s : GameState) (p : Option Coordinate) :
    (s.setOwnDuke p).drawn_tiles = s.drawn_tiles := rfl

@[simp] theorem setOwnDuke_graveyard (s : GameState) (p : Option Coordinate) :
    (s.setOwnDuke p).graveyard = s.graveyard := rfl

@[simp] theorem setOwnDuke_game_over (s : GameState) (p : Option Coordinate) :
    (s.setOwnDuke p).game_over = s.game_over := rfl

@[simp] theorem setOpponentDuke_ply (s : GameState) (p : Option Coordinate) :
    (s.setOpponentDuke p).ply = s.ply := rfl

@[simp] theorem setOpponentDuke_board (s : GameState) (p : Option Coordinate) :
    (s.setOpponentDuke p).board = s.board := rfl

@[simp] theorem setOpponentDuke_bags (s : GameState) (p : Option Coordinate) :
    (s.setOpponentDuke p).bags = s.bags := rfl

@[simp] theorem setOpponentDuke_drawn_tiles (s : GameState) (p : Option Coordinate) :
    (s.setOpponentDuke p).drawn_tiles = s.drawn_tiles := rfl

@[simp] theorem setOpponentDuke_graveyard (s : GameState) (p : Option Coordinate) :
    (s.setOpponentDuke p).graveyard = s.graveyard := rfl

@[simp] theorem setOpponentDuke_game_over (s : GameState) (p : Option Coordinate) :
    (s.setOpponentDuke p).game_over = s.game_over := rfl

/-- The effect catalog of every tile is empty on both sides. -/
theorem tile_effects_eq (t : Tile) : Tile.effects t = NO_EFFECTS := by
  unfold Tile.effects
  split <;> rfl

/-- With the empty effect catalog, add_tile_effects succeeds iff the square
holds a tile, and then changes nothing. -/
theorem add_tile_effects_eq (s : GameState) (c : Coordinate) :
    add_tile_effects s c = ((s.square c).tile).map (fun _ => s) := by
  unfold add_tile_effects
  cases h : (s.square c).tile with
  | none => rfl
  | some t =>
    simp only [Option.map_some]
    rw [tile_effects_eq]
    cases t.flipped <;> rfl

/-- With the empty effect catalog, clear_tile_effects succeeds iff the
square holds a tile, and then changes nothing. -/
theorem clear_tile_effects_eq (s : GameState) (c : Coordinate) :
    clear_tile_effects s c = ((s.square c).tile).map (fun _ => s) := by
  unfold clear_tile_effects
  cases h : (s.square c).tile with
  | none => rfl
  | some t =>
    simp only [Option.map_some]
    rw [tile_effects_eq]
    cases t.flipped <;> rfl

/-- The ply after the ply switch and terminal check is the opposite color. -/
theorem finish_turn_ply (s : GameState) : (finish_turn s).ply = opposite s.ply := by
  unfold finish_turn
  dsimp only
  split
  · split
    · split <;> rfl
    · rfl
  · split <;> rfl

/-- States reachable from the initial state by legal actions: each step
applies an action returned by get_actions via do_unsafe_action (with some
draw index for the bag randomness). -/
inductive Reachable : GameState → Prop where
  | init : Reachable GameState.new
  | step {s s' : GameState} (a : Action) (idx : Nat) :
      Reachable s → a ∈ get_actions s → do_unsafe_action s a idx = some s' →
      Reachable s'

/-- Row-major list of the 36 board coordinates. -/
def boardCoords : List Coordinate :=
  (List.range HEIGHT).flatMap fun y => (List.range WIDTH).map fun x => ⟨x, y⟩

/-- Decides whether a square holds a duke of the given color. -/
def isDukeSquare (s : GameState) (p : Coordinate) (c : TileColor) : Bool :=
  match (s.square p).tile with
  | some t => decide (t.kind = TileType.Duke ∧ t.color = c)
  | none => false

/-- Decides duke cache consistency: dukes c = some p iff the board square p
holds a duke of color c. -/
def duke_cache_consistent (s : GameState) : Bool :=
  [TileColor.Black, TileColor.White].all fun c =>
    boardCoords.all fun p =>
      decide (pick s.dukes c = some p) == isDukeSquare s p c

/-- Decides that no board square carries any effect. -/
def effects_empty (s : GameState) : Bool :=
  s.board.all fun row => row.all fun sq => sq.effects.isEmpty

/-- Identity of a physical tile: its type and color.  Orientation (the
flipped bit) is mutable state of the tile, not its identity, and moving a
tile flips it, so conservation is stated on identities. -/
def tileId (t : Tile) : TileType × TileColor :=
  (t.kind, t.color)

/-- Tile identities of an optional tile slot. -/
def optT (o : Option Tile) : Multiset (TileType × TileColor) :=
  ↑(o.toList.map tileId)

/-- Tile identities of one board row. -/
def tilesRow (r : List Square) : Multiset (TileType × TileColor) :=
  (r.map fun sq => optT sq.tile).sum

/-- Tile identities on the whole board. -/
def board_tiles (b : List (List Square)) : Multiset (TileType × TileColor) :=
  (b.map tilesRow).sum

/-- Tile identities of a tile list (bag, drawn queue, graveyard). -/
def tilesList (l : List Tile) : Multiset (TileType × TileColor) :=
  (l.map fun t => ({tileId t} : Multiset (TileType × TileColor))).sum

/-- Multiset of all tile identities across the four containers: board, both
bags, both drawn queues and the graveyard. -/
def all_tiles (s : GameState) : Multiset (TileType × TileColor) :=
  board_tiles s.board + tilesList s.bags.1 + tilesList s.bags.2 +
    tilesList s.drawn_tiles.1 + tilesList s.drawn_tiles.2 + tilesList s.graveyard

/-! Square projections through the non-board setters. -/

@[simp] theorem square_setOwnDuke (s : GameState) (p : Option Coordinate) (c : Coordinate) :
    (s.setOwnDuke p).square c = s.square c := rfl

@[simp] theorem square_setOpponentDuke (s : GameState) (p : Option Coordinate) (c : Coordinate) :
    (s.setOpponentDuke p).square c = s.square c := rfl

@[simp] theorem square_setBag (s : GameState) (l : List Tile) (c : Coordinate) :
    (s.setBag l).square c = s.square c := rfl

@[simp] theorem square_setDrawn (s : GameState) (l : List Tile) (c : Coordinate) :
    (s.setDrawn l).square c = s.square c := rfl

@[simp] theorem square_graveyardPush (s : GameState) (t : Tile) (c : Coordinate) :
    (graveyardPush s t).square c = s.square c := rfl

@[simp] theorem ply_graveyardPush (s : GameState) (t : Tile) :
    (graveyardPush s t).ply = s.ply := rfl

@[simp] theorem board_graveyardPush (s : GameState) (t : Tile) :
    (graveyardPush s t).board = s.board := rfl

@[simp] theorem bags_graveyardPush (s : GameState) (t : Tile) :
    (graveyardPush s t).bags = s.bags := rfl

@[simp] theorem drawn_graveyardPush (s : GameState) (t : Tile) :
    (graveyardPush s t).drawn_tiles = s.drawn_tiles := rfl

@[simp] theorem dukes_graveyardPush (s : GameState) (t : Tile) :
    (graveyardPush s t).dukes = s.dukes := rfl

@[simp] theorem game_over_graveyardPush (s : GameState) (t : Tile) :
    (graveyardPush s t).game_over = s.game_over := rfl

@[simp] theorem graveyard_graveyardPush (s : GameState) (t : Tile) :
    (graveyardPush s t).graveyard = s.graveyard ++ [t] := rfl

/-- Final state of the standard_action capture branch, as assembled by the
source before the ply switch. -/
def standard_capture_result (s : GameState) (d : ActionData) (tile0 captured : Tile) :
    GameState :=
  let base := s.setTile d.tile_pos none
  let base := if captured.kind = TileType.Duke then base.setOpponentDuke none else base
  let base := graveyardPush base captured
  let base := base.setTile d.target_pos (some tile0.flip)
  if tile0.flip.kind = TileType.Duke then base.setOwnDuke (some d.target_pos) else base

/-- Final state of the standard_action non-capture branch. -/
def standard_move_result (s : GameState) (d : ActionData) (tile0 : Tile) : GameState :=
  let base := (s.setTile d.tile_pos none).setTile d.target_pos (some tile0.flip)
  if tile0.flip.kind = TileType.Duke then base.setOwnDuke (some d.target_pos) else base

/-- Inversion of a successful standard_action: the moved tile exists and has
the ply color, the target square holds a tile afterwards, and the final
state is the capture or the plain-move assembly. -/
theorem standard_action_spec {s st : GameState} {d : ActionData}
    (h : standard_action s d = some st) :
    ∃ tile0, (s.square d.tile_pos).tile = some tile0 ∧ tile0.color = s.ply ∧
      (∃ t6, (st.square d.target_pos).tile = some t6) ∧
      ((d.result = ActionResult.Capture ∧
        ∃ captured, ((s.setTile d.tile_pos none).square d.target_pos).tile = some captured ∧
          st = standard_capture_result s d tile0 captured) ∨
       (d.result = ActionResult.Move ∧ st = standard_move_result s d tile0)) := by
  unfold standard_action at h
  simp only [clear_tile_effects_eq, add_tile_effects_eq, Option.bind_eq_bind,
    Option.map_eq_some', Option.bind_eq_some, Option.pure_def, Option.some_inj] at h
  obtain ⟨tile0, h1, h⟩ := h
  refine ⟨tile0, h1, ?_⟩
  split at h
  next hc =>
    simp only [clear_tile_effects_eq, add_tile_effects_eq, Option.bind_eq_bind,
      Option.map_eq_some', Option.bind_eq_some, Option.pure_def, Option.some_inj] at h
    obtain ⟨st1, ⟨t1, ht1, hst1e⟩, h⟩ := h
    subst hst1e
    refine ⟨hc, ?_⟩
    split at h
    next hres =>
      simp only [clear_tile_effects_eq, add_tile_effects_eq, Option.bind_eq_bind,
        Option.map_eq_some', Option.bind_eq_some, Option.pure_def, Option.some_inj] at h
      obtain ⟨st3, ⟨t3, ht3, hst3e⟩, h⟩ := h
      subst hst3e
      obtain ⟨captured, hcap, h⟩ := h
      obtain ⟨y, hy, st6, ⟨t6, ht6, hst6e⟩, hfin⟩ := h
      subst hy
      subst hst6e
      subst hfin
      constructor
      · refine ⟨t6, ?_⟩
        split <;> simpa using ht6
      · left
        refine ⟨hres, captured, hcap, ?_⟩
        unfold standard_capture_result
        split <;> rfl
    next hres =>
      simp only [clear_tile_effects_eq, add_tile_effects_eq, Option.bind_eq_bind,
        Option.map_eq_some', Option.bind_eq_some, Option.pure_def, Option.some_inj] at h
      obtain ⟨y, hy, st6, ⟨t6, ht6, hst6e⟩, hfin⟩ := h
      subst hy
      subst hst6e
      subst hfin
      constructor
      · refine ⟨t6, ?_⟩
        split <;> simpa using ht6
      · right
        refine ⟨?_, ?_⟩
        · cases hd : d.result
          · rfl
          · exact absurd hd hres
        · unfold standard_move_result
          split <;> rfl
  next hc => cases h


/-- A square that holds a tile lies inside the board lists. -/
theorem square_some_inbounds {s : GameState} {c : Coordinate} {u : Tile}
    (h : (s.square c).tile = some u) :
    c.y < s.board.length ∧ c.x < (s.board.getD c.y []).length := by
  unfold GameState.square at h
  rcases Nat.lt_or_ge c.y s.board.length with hy | hy
  · refine ⟨hy, ?_⟩
    rcases Nat.lt_or_ge c.x (s.board.getD c.y []).length with hx | hx
    · exact hx
    · rw [List.getD_eq_getElem?_getD (s.board.getD c.y []) c.x Square.default,
        List.getElem?_eq_none hx] at h
      simp [Square.default] at h
  · exfalso
    rw [List.getD_eq_getElem?_getD s.board c.y [], List.getElem?_eq_none hy] at h
    simp [Square.default] at h

/-- Reading back the square just written by setTile. -/
theorem square_setTile_self {s : GameState} {c : Coordinate}
    (hy : c.y < s.board.length) (hx : c.x < (s.board.getD c.y []).length)
    (t : Option Tile) :
    (s.setTile c t).square c = { s.square c with tile := t } := by
  unfold GameState.setTile GameState.setSquare GameState.square
  dsimp only
  simp only [List.getD_eq_getElem?_getD] at hx ⊢
  rw [List.getElem?_set_self hy, Option.getD_some, List.getElem?_set_self hx,
    Option.getD_some]

/-- Reading any other square after setTile. -/
theorem square_setTile_ne {s : GameState} {c c' : Coordinate} (t : Option Tile)
    (h : c'.x ≠ c.x ∨ c'.y ≠ c.y) :
    (s.setTile c t).square c' = s.square c' := by
  unfold GameState.setTile GameState.setSquare GameState.square
  dsimp only
  simp only [List.getD_eq_getElem?_getD]
  rcases eq_or_ne c'.y c.y with hy | hy
  · rcases h with h | h
    · rw [hy, List.getElem?_set, if_pos rfl]
      split
      next hlt =>
        rw [Option.getD_some, List.getElem?_set_ne (Ne.symm h)]
      next hge =>
        rw [List.getElem?_eq_none (show s.board.length ≤ c.y by omega)]
    · exact absurd hy h
  · rw [List.getElem?_set_ne (Ne.symm hy)]

def command_base_capture (s : GameState) (d : CommandActionData) (tile captured : Tile) :
    GameState :=
  let b := s.setTile d.command_tile_pos none
  let b := if captured.kind = TileType.Duke then b.setOpponentDuke none else b
  let b := graveyardPush b captured
  b.setTile d.target_pos (some tile)

def command_base_move (s : GameState) (d : CommandActionData) (tile : Tile) : GameState :=
  (s.setTile d.command_tile_pos none).setTile d.target_pos (some tile)

theorem command_action_spec {s st : GameState} {d : CommandActionData}
    (h : command_action s d = some st) :
    ∃ commander0, (s.square d.tile_pos).tile = some commander0 ∧ commander0.color = s.ply ∧
      ∃ tile, (s.square d.command_tile_pos).tile = some tile ∧
      ∃ base,
        ((d.result = ActionResult.Capture ∧
          ∃ captured,
            ((s.setTile d.command_tile_pos none).square d.target_pos).tile = some captured ∧
            base = command_base_capture s d tile captured) ∨
         (d.result = ActionResult.Move ∧ base = command_base_move s d tile)) ∧
        ∃ commander, (base.square d.tile_pos).tile = some commander ∧
          st = base.setTile d.tile_pos (some commander.flip) ∧
          ∃ td, (st.square d.target_pos).tile = some td := by
  unfold command_action at h
  simp only [Option.bind_eq_bind] at h
  rw [Option.bind_eq_some] at h
  obtain ⟨commander0, h1, h⟩ := h
  refine ⟨commander0, h1, ?_⟩
  split at h
  next hc =>
    rw [Option.bind_eq_some] at h
    obtain ⟨tile, h2, h⟩ := h
    rw [clear_tile_effects_eq, h1, Option.map_some', Option.some_bind] at h
    rw [clear_tile_effects_eq, h1, Option.map_some', Option.some_bind] at h
    refine ⟨hc, tile, h2, ?_⟩
    split at h
    next hres =>
      rw [clear_tile_effects_eq] at h
      cases h3 : ((s.setTile d.command_tile_pos none).square d.target_pos).tile with
      | none => rw [h3] at h; simp at h
      | some captured =>
        rw [h3, Option.map_some', Option.some_bind, h3, Option.some_bind] at h
        change (some (command_base_capture s d tile captured)).bind _ = some st at h
        rw [Option.some_bind, Option.bind_eq_some] at h
        obtain ⟨commander, hcom, h⟩ := h
        obtain ⟨hby, hbx⟩ := square_some_inbounds hcom
        rw [add_tile_effects_eq] at h
        rw [show (((command_base_capture s d tile captured).setTile d.tile_pos
            (some commander.flip)).square d.tile_pos).tile = some commander.flip by
          rw [square_setTile_self hby hbx]] at h
        rw [Option.map_some', Option.some_bind, add_tile_effects_eq] at h
        cases h4 : (((command_base_capture s d tile captured).setTile d.tile_pos
            (some commander.flip)).square d.target_pos).tile with
        | none => rw [h4] at h; simp at h
        | some td =>
          rw [h4, Option.map_some'] at h
          cases h
          exact ⟨_, Or.inl ⟨hres, captured, rfl, rfl⟩, commander, hcom, rfl, td, h4⟩
    next hres =>
      change (some (command_base_move s d tile)).bind _ = some st at h
      rw [Option.some_bind, Option.bind_eq_some] at h
      obtain ⟨commander, hcom, h⟩ := h
      obtain ⟨hby, hbx⟩ := square_some_inbounds hcom
      rw [add_tile_effects_eq] at h
      rw [show (((command_base_move s d tile).setTile d.tile_pos
          (some commander.flip)).square d.tile_pos).tile = some commander.flip by
        rw [square_setTile_self hby hbx]] at h
      rw [Option.map_some', Option.some_bind, add_tile_effects_eq] at h
      cases h4 : (((command_base_move s d tile).setTile d.tile_pos
          (some commander.flip)).square d.target_pos).tile with
      | none => rw [h4] at h; simp at h
      | some td =>
        rw [h4, Option.map_some'] at h
        cases h
        refine ⟨_, Or.inr ⟨?_, rfl⟩, commander, hcom, rfl, td, h4⟩
        cases hd : d.result
        · rfl
        · exact absurd hd hres
  next hc => cases h

/-- State after the struck tile has been removed, before the striker flip. -/
def strike_base (s : GameState) (d : ActionData) (captured : Tile) : GameState :=
  let b := if captured.kind = TileType.Duke then s.setOpponentDuke none else s
  let b := graveyardPush b captured
  b.setTile d.target_pos none

/-- Inversion of a successful strike_action. -/
theorem strike_action_spec {s st : GameState} {d : ActionData}
    (h : strike_action s d = some st) :
    ∃ striker0, (s.square d.tile_pos).tile = some striker0 ∧ striker0.color = s.ply ∧
      ∃ captured, (s.square d.target_pos).tile = some captured ∧
      ∃ striker, ((strike_base s d captured).square d.tile_pos).tile = some striker ∧
        st = (strike_base s d captured).setTile d.tile_pos (some striker.flip) := by
  unfold strike_action at h
  simp only [Option.bind_eq_bind] at h
  rw [Option.bind_eq_some] at h
  obtain ⟨striker0, h1, h⟩ := h
  refine ⟨striker0, h1, ?_⟩
  split at h
  next hc =>
    rw [clear_tile_effects_eq] at h
    cases h2 : (s.square d.target_pos).tile with
    | none => rw [h2] at h; simp at h
    | some captured =>
      rw [h2, Option.map_some', Option.some_bind, h2, Option.some_bind] at h
      change (clear_tile_effects (strike_base s d captured) d.tile_pos).bind _ = some st at h
      rw [clear_tile_effects_eq] at h
      cases h3 : ((strike_base s d captured).square d.tile_pos).tile with
      | none => rw [h3] at h; simp at h
      | some striker =>
        rw [h3, Option.map_some', Option.some_bind, h3, Option.some_bind] at h
        obtain ⟨hby, hbx⟩ := square_some_inbounds h3
        rw [add_tile_effects_eq] at h
        rw [show (((strike_base s d captured).setTile d.tile_pos
            (some striker.flip)).square d.tile_pos).tile = some striker.flip by
          rw [square_setTile_self hby hbx]] at h
        rw [Option.map_some'] at h
        cases h
        exact ⟨hc, captured, rfl, striker, h3, rfl⟩
  next hc => cases h

/-- State assembled by the PlaceNew branch before the ply switch. -/
def place_result (s : GameState) (c : Coordinate) (tile : Tile) : GameState :=
  let st := s.setDrawn s.drawn.dropLast
  let st := if tile.kind = TileType.Duke then st.setOwnDuke (some c) else st
  st.setTile c (some tile)

/-- Inversion of a successful PlaceNew application. -/
theorem do_placenew_spec {s s' : GameState} {c : Coordinate} {idx : Nat}
    (h : do_unsafe_action s (Action.PlaceNew c) idx = some s') :
    ∃ tile, s.drawn.getLast? = some tile ∧ tile.color = s.ply ∧
      (∃ tt, ((place_result s c tile).square c).tile = some tt) ∧
      s' = finish_turn (place_result s c tile) := by
  unfold do_unsafe_action at h
  simp only [Option.bind_eq_bind] at h
  rw [Option.bind_eq_some] at h
  obtain ⟨tile, h1, h⟩ := h
  refine ⟨tile, h1, ?_⟩
  split at h
  next hcol =>
    refine ⟨hcol, ?_⟩
    rw [add_tile_effects_eq] at h
    cases h2 : ((place_result s c tile).square c).tile with
    | none =>
      rw [show ((if tile.kind = TileType.Duke
          then (s.setDrawn s.drawn.dropLast).setOwnDuke (some c)
          else s.setDrawn s.drawn.dropLast).setTile c (some tile))
        = place_result s c tile from rfl, h2] at h
      simp at h
    | some tt =>
      rw [show ((if tile.kind = TileType.Duke
          then (s.setDrawn s.drawn.dropLast).setOwnDuke (some c)
          else s.setDrawn s.drawn.dropLast).setTile c (some tile))
        = place_result s c tile from rfl, h2] at h
      rw [Option.map_some', Option.some_bind] at h
      simp only [Option.pure_def, Option.some_inj] at h
      exact ⟨⟨tt, rfl⟩, h.symm⟩
  next hcol => cases h

/-- Inversion of a successful NewFromBag application. -/
theorem do_newfrombag_spec {s s' : GameState} {idx : Nat}
    (h : do_unsafe_action s Action.NewFromBag idx = some s') :
    ∃ tile, s.bag.get? idx = some tile ∧
      s' = (s.setBag (swapRemoveD s.bag idx)).setDrawn
        ((s.setBag (swapRemoveD s.bag idx)).drawn ++ [tile]) := by
  unfold do_unsafe_action at h
  cases hx : s.bag.get? idx with
  | none => rw [hx] at h; cases h
  | some tile =>
    rw [hx] at h
    cases h
    exact ⟨tile, rfl, rfl⟩

/-- The ply is unchanged by the standard_action closure (before the switch). -/
theorem standard_action_ply {s st : GameState} {d : ActionData}
    (h : standard_action s d = some st) : st.ply = s.ply := by
  obtain ⟨tile0, _, _, _, halt⟩ := standard_action_spec h
  rcases halt with ⟨_, captured, _, rfl⟩ | ⟨_, rfl⟩
  · unfold standard_capture_result
    dsimp only
    split <;> split <;> simp
  · unfold standard_move_result
    dsimp only
    split <;> simp

/-- The ply is unchanged by the command branch (before the switch). -/
theorem command_action_ply {s st : GameState} {d : CommandActionData}
    (h : command_action s d = some st) : st.ply = s.ply := by
  obtain ⟨c0, _, _, tile, _, base, hbase, commander, _, rfl, _⟩ := command_action_spec h
  rcases hbase with ⟨_, captured, _, rfl⟩ | ⟨_, rfl⟩
  · unfold command_base_capture
    dsimp only
    split <;> simp
  · unfold command_base_move
    simp

/-- The ply is unchanged by the strike branch (before the switch). -/
theorem strike_action_ply {s st : GameState} {d : ActionData}
    (h : strike_action s d = some st) : st.ply = s.ply := by
  obtain ⟨s0, _, _, captured, _, striker, _, rfl⟩ := strike_action_spec h
  unfold strike_base
  dsimp only
  split <;> simp

/-- C3: applying any legal action other than NewFromBag through
do_unsafe_action flips the ply to the opposite color, while NewFromBag
leaves the ply unchanged. -/
theorem c3_ply_alternation (s : GameState) (a : Action) (idx : Nat) (s' : GameState)
    (hmem : a ∈ get_actions s) (h : do_unsafe_action s a idx = some s') :
    (a = Action.NewFromBag → s'.ply = s.ply) ∧
    (a ≠ Action.NewFromBag → s'.ply = opposite s.ply) := by
  cases a with
  | NewFromBag =>
    obtain ⟨tile, h1, rfl⟩ := do_newfrombag_spec h
    exact ⟨fun _ => by simp, fun hne => absurd rfl hne⟩
  | PlaceNew c =>
    obtain ⟨tile, h1, hcol, hadd, rfl⟩ := do_placenew_spec h
    refine ⟨(fun heq => nomatch heq), fun _ => ?_⟩
    rw [finish_turn_ply]
    unfold place_result
    dsimp only
    split <;> simp
  | Move d =>
    simp only [do_unsafe_action, Option.map_eq_some'] at h
    obtain ⟨st, hst, rfl⟩ := h
    exact ⟨(fun heq => nomatch heq),
      fun _ => by rw [finish_turn_ply, standard_action_ply hst]⟩
  | Jump d =>
    simp only [do_unsafe_action, Option.map_eq_some'] at h
    obtain ⟨st, hst, rfl⟩ := h
    exact ⟨(fun heq => nomatch heq),
      fun _ => by rw [finish_turn_ply, standard_action_ply hst]⟩
  | JumpSlide d =>
    simp only [do_unsafe_action, Option.map_eq_some'] at h
    obtain ⟨st, hst, rfl⟩ := h
    exact ⟨(fun heq => nomatch heq),
      fun _ => by rw [finish_turn_ply, standard_action_ply hst]⟩
  | Slide d =>
    simp only [do_unsafe_action, Option.map_eq_some'] at h
    obtain ⟨st, hst, rfl⟩ := h
    exact ⟨(fun heq => nomatch heq),
      fun _ => by rw [finish_turn_ply, standard_action_ply hst]⟩
  | Command d =>
    simp only [do_unsafe_action, Option.map_eq_some'] at h
    obtain ⟨st, hst, rfl⟩ := h
    exact ⟨(fun heq => nomatch heq),
      fun _ => by rw [finish_turn_ply, command_action_ply hst]⟩
  | Strike d =>
    simp only [do_unsafe_action, Option.map_eq_some'] at h
    obtain ⟨st, hst, rfl⟩ := h
    exact ⟨(fun heq => nomatch heq),
      fun _ => by rw [finish_turn_ply, strike_action_ply hst]⟩

/-- C3 witness: the opening placement of the black duke is not NewFromBag
and flips the ply from Black to White. -/
theorem c3_ply_alternation_witness :
    (Action.PlaceNew ⟨2, 0⟩) ∈ get_actions GameState.new ∧
    ∃ s', do_unsafe_action GameState.new (Action.PlaceNew ⟨2, 0⟩) 0 = some s' ∧
      s'.ply = opposite GameState.new.ply := by
  refine ⟨by decide, (do_unsafe_action GameState.new (Action.PlaceNew ⟨2, 0⟩) 0).getD
    GameState.new, by decide, ?_⟩
  exact (c3_ply_alternation GameState.new (Action.PlaceNew ⟨2, 0⟩) 0 _ (by decide)
    (by decide)).2 (by decide)

/-- C8: do_unsafe_action_copy on any action other than NewFromBag does not
depend on the sampled random index, so repeated evaluation on equal state
and action yields equal results; the bag draw is the only branch reading
the injected randomness. -/
theorem c8_determinism_outside_bag_draw (s : GameState) (a : Action) (i j : Nat)
    (hne : a ≠ Action.NewFromBag) :
    do_unsafe_action_copy s a i = do_unsafe_action_copy s a j := by
  cases a with
  | NewFromBag => exact absurd rfl hne
  | PlaceNew c => rfl
  | Move d => rfl
  | Jump d => rfl
  | JumpSlide d => rfl
  | Slide d => rfl
  | Command d => rfl
  | Strike d => rfl

/-- C8 witness: the opening placement applied with two different random
indices gives the same state. -/
theorem c8_determinism_witness :
    (Action.PlaceNew ⟨2, 0⟩ : Action) ≠ Action.NewFromBag ∧
    do_unsafe_action_copy GameState.new (Action.PlaceNew ⟨2, 0⟩) 0 =
      do_unsafe_action_copy GameState.new (Action.PlaceNew ⟨2, 0⟩) 7 :=
  ⟨by decide, c8_determinism_outside_bag_draw GameState.new (Action.PlaceNew ⟨2, 0⟩) 0 7
    (by decide)⟩

/-- C4 counterexample: the initial drawn queue of Black pops Duke, Footman,
Footman, not Footman, Footman, Duke as the claim states (List.reverse gives
the pop order of the Rust vector, which pops from the back). -/
theorem c4_counterexample :
    ((pick GameState.new.drawn_tiles TileColor.Black).reverse.map Tile.kind
      = [TileType.Duke, TileType.Footman, TileType.Footman]) ∧
    ¬((pick GameState.new.drawn_tiles TileColor.Black).reverse.map Tile.kind
      = [TileType.Footman, TileType.Footman, TileType.Duke]) := by
  decide

/-- C4 amended: in GameState.new both drawn queues pop Duke first and then
the two Footman tiles, so the first PlaceNew action deploys the Duke. -/
theorem c4_amended_pop_order :
    ((pick GameState.new.drawn_tiles TileColor.Black).reverse.map Tile.kind
      = [TileType.Duke, TileType.Footman, TileType.Footman]) ∧
    ((pick GameState.new.drawn_tiles TileColor.White).reverse.map Tile.kind
      = [TileType.Duke, TileType.Footman, TileType.Footman]) ∧
    (∃ s', do_unsafe_action GameState.new (Action.PlaceNew ⟨2, 0⟩) 0 = some s' ∧
      (s'.square ⟨2, 0⟩).tile.map Tile.kind = some TileType.Duke) := by
  refine ⟨by decide, by decide,
    (do_unsafe_action GameState.new (Action.PlaceNew ⟨2, 0⟩) 0).getD GameState.new,
    by decide, by decide⟩

/-- Position used for the comparator claims: a black Footman on (0,0) facing
a white Footman on (1,0), no drawn tiles. -/
def c5State : GameState :=
  (({ GameState.new with drawn_tiles := ([], []) }).setTile ⟨0, 0⟩
      (some (Tile.mk' .Footman .Black))).setTile ⟨1, 0⟩
    (some (Tile.mk' .Footman .White))

/-- Capture action available to Black in c5State. -/
def c5Capture : Action :=
  Action.Move { tile_pos := ⟨0, 0⟩, target_pos := ⟨1, 0⟩, result := .Capture }

/-- Non-capture action available to Black in c5State. -/
def c5Quiet : Action :=
  Action.Move { tile_pos := ⟨0, 0⟩, target_pos := ⟨0, 1⟩, result := .Move }

/-- C5: at the failing input, action_cmp ranks a legal capture below a legal
non-capture (Ordering.lt, where the documented contract says greater is
better), and only equal to NewFromBag: the claimed Ordering.gt never
appears. -/
theorem c5_capture_not_ranked_greater :
    c5Capture ∈ get_actions c5State ∧ c5Quiet ∈ get_actions c5State ∧
    action_cmp (c5State, c5Capture) (c5State, c5Quiet) = Ordering.lt ∧
    action_cmp (c5State, c5Capture) (c5State, Action.NewFromBag) = Ordering.eq := by
  decide

/-- C10: action_cmp is not antisymmetric: on c5State the capture compares
as Ordering.lt against the non-capture while the swapped comparison gives
Ordering.eq, so the move-ordering comparator does not define a total
order. -/
theorem c10_action_cmp_not_antisymmetric :
    action_cmp (c5State, c5Capture) (c5State, c5Quiet) = Ordering.lt ∧
    action_cmp (c5State, c5Quiet) (c5State, c5Capture) = Ordering.eq ∧
    ¬(action_cmp (c5State, c5Quiet) (c5State, c5Capture) = Ordering.gt) := by
  decide

/-- Applies one action, falling back to the initial state on failure (the
fallback is never used on the concrete trace below). -/
def c1step (s : GameState) (a : Action) (i : Nat) : GameState :=
  (do_unsafe_action s a i).getD GameState.new

/-- Trace to the duke-cache bug: opening deployment of both sides, Black
draws the Countess (bag index 13) and places it beside the duke, White makes
a waiting move. -/
def c1s1 : GameState := c1step GameState.new (Action.PlaceNew ⟨2, 0⟩) 0

/-- Second trace state: White places its duke. -/
def c1s2 : GameState := c1step c1s1 (Action.PlaceNew ⟨2, 5⟩) 0

/-- Third trace state: Black places a footman. -/
def c1s3 : GameState := c1step c1s2 (Action.PlaceNew ⟨1, 0⟩) 0

/-- Fourth trace state: White places a footman. -/
def c1s4 : GameState := c1step c1s3 (Action.PlaceNew ⟨1, 5⟩) 0

/-- Fifth trace state: Black places its second footman. -/
def c1s5 : GameState := c1step c1s4 (Action.PlaceNew ⟨2, 1⟩) 0

/-- Sixth trace state: White places its second footman. -/
def c1s6 : GameState := c1step c1s5 (Action.PlaceNew ⟨2, 4⟩) 0

/-- Seventh trace state: Black draws from the bag at index 13, the
Countess. -/
def c1s7 : GameState := c1step c1s6 Action.NewFromBag 13

/-- Eighth trace state: Black places the Countess at (3,0), next to its
duke. -/
def c1s8 : GameState := c1step c1s7 (Action.PlaceNew ⟨3, 0⟩) 0

/-- Ninth trace state: White moves its (1,5) footman down. -/
def c1s9 : GameState :=
  c1step c1s8 (Action.Move { tile_pos := ⟨1, 5⟩, target_pos := ⟨1, 4⟩, result := .Move }) 0

/-- The legal Command by which the front-side Countess at (3,0) moves the
Black duke from (2,0) to (5,0). -/
def c1cmd : Action :=
  Action.Command { tile_pos := ⟨3, 0⟩, command_tile_pos := ⟨2, 0⟩,
                   target_pos := ⟨5, 0⟩, result := .Move }

/-- Tenth trace state: the duke has moved to (5,0) but the cache still says
(2,0). -/
def c1s10 : GameState := c1step c1s9 c1cmd 0

set_option maxRecDepth 4096

/-- C1: the duke cache invariant is not preserved by play: c1s10 is
reachable from GameState.new through get_actions and do_unsafe_action, yet
dukes[Black] still points at the vacated square (2,0) while the black duke
stands on (5,0) — the Command branch of do_unsafe_action never updates the
cache for a commanded duke. -/
theorem c1_command_breaks_duke_cache :
    Reachable c1s10 ∧
    pick c1s10.dukes TileColor.Black = some ⟨2, 0⟩ ∧
    (c1s10.square ⟨2, 0⟩).tile = none ∧
    (c1s10.square ⟨5, 0⟩).tile = some (Tile.mk' TileType.Duke TileColor.Black) ∧
    duke_cache_consistent c1s10 = false := by
  refine ⟨?_, by decide, by decide, by decide, by decide⟩
  have h1 : Reachable c1s1 :=
    Reachable.step (Action.PlaceNew ⟨2, 0⟩) 0 Reachable.init (by decide) (by decide)
  have h2 : Reachable c1s2 :=
    Reachable.step (Action.PlaceNew ⟨2, 5⟩) 0 h1 (by decide) (by decide)
  have h3 : Reachable c1s3 :=
    Reachable.step (Action.PlaceNew ⟨1, 0⟩) 0 h2 (by decide) (by decide)
  have h4 : Reachable c1s4 :=
    Reachable.step (Action.PlaceNew ⟨1, 5⟩) 0 h3 (by decide) (by decide)
  have h5 : Reachable c1s5 :=
    Reachable.step (Action.PlaceNew ⟨2, 1⟩) 0 h4 (by decide) (by decide)
  have h6 : Reachable c1s6 :=
    Reachable.step (Action.PlaceNew ⟨2, 4⟩) 0 h5 (by decide) (by decide)
  have h7 : Reachable c1s7 :=
    Reachable.step Action.NewFromBag 13 h6 (by decide) (by decide)
  have h8 : Reachable c1s8 :=
    Reachable.step (Action.PlaceNew ⟨3, 0⟩) 0 h7 (by decide) (by decide)
  have h9 : Reachable c1s9 :=
    Reachable.step
      (Action.Move { tile_pos := ⟨1, 5⟩, target_pos := ⟨1, 4⟩, result := .Move }) 0
      h8 (by decide) (by decide)
  exact Reachable.step c1cmd 0 h9 (by decide) (by decide)

/-- getD either returns a member of the list or the default. -/
theorem getD_mem_or_default {α : Type} (l : List α) (i : Nat) (d : α) :
    l.getD i d ∈ l ∨ l.getD i d = d := by
  rw [List.getD_eq_getElem?_getD]
  cases h : l[i]? with
  | none => right; rfl
  | some a =>
    left
    exact List.getElem?_mem h

/-- The terminal check does not touch the board. -/
theorem finish_turn_board (s : GameState) : (finish_turn s).board = s.board := by
  unfold finish_turn
  dsimp only
  split
  · split
    · split <;> rfl
    · rfl
  · split <;> rfl

/-- effects_empty only looks at the board. -/
theorem effects_empty_congr {s s' : GameState} (h : s'.board = s.board) :
    effects_empty s' = effects_empty s := by
  unfold effects_empty
  rw [h]

/-- Writing a tile slot never adds square effects. -/
theorem effects_empty_setTile {s : GameState} (c : Coordinate) (t : Option Tile)
    (h : effects_empty s = true) : effects_empty (s.setTile c t) = true := by
  unfold effects_empty at h ⊢
  unfold GameState.setTile GameState.setSquare
  dsimp only
  rw [List.all_eq_true] at h ⊢
  intro row hrow
  rcases List.mem_or_eq_of_mem_set hrow with hrow | rfl
  · exact h row hrow
  · rw [List.all_eq_true]
    intro sq hsq
    have hrowOK : ∀ sq2, sq2 ∈ s.board.getD c.y [] → sq2.effects.isEmpty = true := by
      intro sq2 hsq2
      rcases getD_mem_or_default s.board c.y [] with hmem | hnil
      · have := h _ hmem
        rw [List.all_eq_true] at this
        exact this sq2 hsq2
      · rw [hnil] at hsq2
        cases hsq2
    rcases List.mem_or_eq_of_mem_set hsq with hsq | rfl
    · exact hrowOK sq hsq
    · show ((s.square c).effects).isEmpty = true
      unfold GameState.square
      rcases getD_mem_or_default (s.board.getD c.y []) c.x Square.default with hmem | hdef
      · exact hrowOK _ hmem
      · rw [hdef]
        rfl

/-- One application of do_unsafe_action never adds square effects (with the
empty effect catalog every add and clear is the identity, and all other
board writes only move tile slots). -/
theorem do_preserves_effects_empty {s s' : GameState} {a : Action} {idx : Nat}
    (hdo : do_unsafe_action s a idx = some s') (h : effects_empty s = true) :
    effects_empty s' = true := by
  cases a with
  | NewFromBag =>
    obtain ⟨tile, _, rfl⟩ := do_newfrombag_spec hdo
    exact h
  | PlaceNew c =>
    obtain ⟨tile, _, _, _, rfl⟩ := do_placenew_spec hdo
    rw [effects_empty_congr (finish_turn_board _)]
    unfold place_result
    dsimp only
    split <;> exact effects_empty_setTile _ _ h
  | Move d =>
    simp only [do_unsafe_action, Option.map_eq_some'] at hdo
    obtain ⟨st, hst, rfl⟩ := hdo
    rw [effects_empty_congr (finish_turn_board _)]
    obtain ⟨tile0, _, _, _, halt⟩ := standard_action_spec hst
    rcases halt with ⟨_, captured, _, rfl⟩ | ⟨_, rfl⟩
    · unfold standard_capture_result
      dsimp only
      split <;> split <;>
        exact effects_empty_setTile _ _ (effects_empty_setTile _ _ h)
    · unfold standard_move_result
      dsimp only
      split <;> exact effects_empty_setTile _ _ (effects_empty_setTile _ _ h)
  | Jump d =>
    simp only [do_unsafe_action, Option.map_eq_some'] at hdo
    obtain ⟨st, hst, rfl⟩ := hdo
    rw [effects_empty_congr (finish_turn_board _)]
    obtain ⟨tile0, _, _, _, halt⟩ := standard_action_spec hst
    rcases halt with ⟨_, captured, _, rfl⟩ | ⟨_, rfl⟩
    · unfold standard_capture_result
      dsimp only
      split <;> split <;>
        exact effects_empty_setTile _ _ (effects_empty_setTile _ _ h)
    · unfold standard_move_result
      dsimp only
      split <;> exact effects_empty_setTile _ _ (effects_empty_setTile _ _ h)
  | JumpSlide d =>
    simp only [do_unsafe_action, Option.map_eq_some'] at hdo
    obtain ⟨st, hst, rfl⟩ := hdo
    rw [effects_empty_congr (finish_turn_board _)]
    obtain ⟨tile0, _, _, _, halt⟩ := standard_action_spec hst
    rcases halt with ⟨_, captured, _, rfl⟩ | ⟨_, rfl⟩
    · unfold standard_capture_result
      dsimp only
      split <;> split <;>
        exact effects_empty_setTile _ _ (effects_empty_setTile _ _ h)
    · unfold standard_move_result
      dsimp only
      split <;> exact effects_empty_setTile _ _ (effects_empty_setTile _ _ h)
  | Slide d =>
    simp only [do_unsafe_action, Option.map_eq_some'] at hdo
    obtain ⟨st, hst, rfl⟩ := hdo
    rw [effects_empty_congr (finish_turn_board _)]
    obtain ⟨tile0, _, _, _, halt⟩ := standard_action_spec hst
    rcases halt with ⟨_, captured, _, rfl⟩ | ⟨_, rfl⟩
    · unfold standard_capture_result
      dsimp only
      split <;> split <;>
        exact effects_empty_setTile _ _ (effects_empty_setTile _ _ h)
    · unfold standard_move_result
      dsimp only
      split <;> exact effects_empty_setTile _ _ (effects_empty_setTile _ _ h)
  | Command d =>
    simp only [do_unsafe_action, Option.map_eq_some'] at hdo
    obtain ⟨st, hst, rfl⟩ := hdo
    rw [effects_empty_congr (finish_turn_board _)]
    obtain ⟨c0, _, _, tile, _, base, hbase, commander, _, rfl, _⟩ := command_action_spec hst
    rcases hbase with ⟨_, captured, _, rfl⟩ | ⟨_, rfl⟩
    · unfold command_base_capture
      dsimp only
      split <;>
        exact effects_empty_setTile _ _
          (effects_empty_setTile _ _ (effects_empty_setTile _ _ h))
    · unfold command_base_move
      exact effects_empty_setTile _ _
        (effects_empty_setTile _ _ (effects_empty_setTile _ _ h))
  | Strike d =>
    simp only [do_unsafe_action, Option.map_eq_some'] at hdo
    obtain ⟨st, hst, rfl⟩ := hdo
    rw [effects_empty_congr (finish_turn_board _)]
    obtain ⟨s0, _, _, captured, _, striker, _, rfl⟩ := strike_action_spec hst
    unfold strike_base
    dsimp only
    split <;>
      exact effects_empty_setTile _ _ (effects_empty_setTile _ _ h)

/-- C9: with the empty TILE_EFFECTS catalog no effect is ever projected, so
in every state reachable from GameState.new by legal play the effects list
of every board square is empty, and the effect-based blocking and
inhibition rules are vacuous. -/
theorem c9_effects_always_empty (s : GameState) (h : Reachable s) :
    effects_empty s = true := by
  induction h with
  | init => decide
  | step a idx hr hmem hdo ih => exact do_preserves_effects_empty hdo ih

/-- C9 witness: the invariant instantiated at the initial state. -/
theorem c9_effects_always_empty_witness : effects_empty GameState.new = true :=
  c9_effects_always_empty GameState.new Reachable.init

/-- u8OfI8 is the identity on byte-range values. -/
theorem u8OfI8_int (v : Int) (h0 : 0 ≤ v) (h1 : v < 256) : (u8OfI8 v : Int) = v := by
  unfold u8OfI8
  omega

/-- Point k steps from start along a direction. -/
def pathPoint (start : Coordinate) (dir : Direction) (k : Nat) : Coordinate :=
  ⟨((start.x : Int) + k * dir.x).toNat, ((start.y : Int) + k * dir.y).toNat⟩

/-- Chebyshev distance, the number of loop steps of a straight walk. -/
def chebyshev (a b : Coordinate) : Nat :=
  max ((b.x : Int) - a.x).natAbs ((b.y : Int) - a.y).natAbs

/-- On a straight pair the end point is start plus chebyshev many steps of
the sign direction, and the direction is a nonzero vector of signs. -/
theorem straight_geometry {start e : Coordinate}
    (hstraight : straight_path start e = true) (hne : ¬(start.x = e.x ∧ start.y = e.y)) :
    1 ≤ chebyshev start e ∧
    (e.x : Int) = start.x + chebyshev start e * (get_direction start e).x ∧
    (e.y : Int) = start.y + chebyshev start e * (get_direction start e).y ∧
    ((get_direction start e).x = -1 ∨ (get_direction start e).x = 0 ∨
      (get_direction start e).x = 1) ∧
    ((get_direction start e).y = -1 ∨ (get_direction start e).y = 0 ∨
      (get_direction start e).y = 1) ∧
    ¬((get_direction start e).x = 0 ∧ (get_direction start e).y = 0) := by
  have hS : start.x = e.x ∨ start.y = e.y ∨
      ((e.x : Int) - start.x).natAbs = ((e.y : Int) - start.y).natAbs := by
    unfold straight_path at hstraight
    split at hstraight
    next h =>
      rcases h with h | h
      · exact Or.inl h
      · exact Or.inr (Or.inl h)
    next h =>
      split at hstraight
      next h2 => exact Or.inr (Or.inr h2)
      next h2 => cases hstraight
  have hdx2 : ((get_direction start e).x = 1 ∧ start.x < e.x) ∨
      ((get_direction start e).x = -1 ∧ e.x < start.x) ∨
      ((get_direction start e).x = 0 ∧ start.x = e.x) := by
    rcases Nat.lt_trichotomy start.x e.x with h | h | h
    · exact Or.inl ⟨by unfold get_direction; dsimp only; rw [if_pos h], h⟩
    · exact Or.inr (Or.inr ⟨by
        unfold get_direction; dsimp only; rw [if_neg (by omega), if_neg (by omega)], h⟩)
    · exact Or.inr (Or.inl ⟨by
        unfold get_direction; dsimp only; rw [if_neg (by omega), if_pos h], h⟩)
  have hdy2 : ((get_direction start e).y = 1 ∧ start.y < e.y) ∨
      ((get_direction start e).y = -1 ∧ e.y < start.y) ∨
      ((get_direction start e).y = 0 ∧ start.y = e.y) := by
    rcases Nat.lt_trichotomy start.y e.y with h | h | h
    · exact Or.inl ⟨by unfold get_direction; dsimp only; rw [if_pos h], h⟩
    · exact Or.inr (Or.inr ⟨by
        unfold get_direction; dsimp only; rw [if_neg (by omega), if_neg (by omega)], h⟩)
    · exact Or.inr (Or.inl ⟨by
        unfold get_direction; dsimp only; rw [if_neg (by omega), if_pos h], h⟩)
  unfold chebyshev
  obtain ⟨hdx, hxo⟩ | ⟨hdx, hxo⟩ | ⟨hdx, hxo⟩ := hdx2 <;>
    obtain ⟨hdy, hyo⟩ | ⟨hdy, hyo⟩ | ⟨hdy, hyo⟩ := hdy2 <;>
      rw [hdx, hdy] <;> omega

theorem coord_ext {a b : Coordinate} (hx : a.x = b.x) (hy : a.y = b.y) : a = b := by
  cases a
  cases b
  simp_all

theorem pathPoint_shift {cord cordS : Coordinate} {dx dy : Int}
    (hsx : (cordS.x : Int) = cord.x + dx) (hsy : (cordS.y : Int) = cord.y + dy)
    (k : Nat) : pathPoint cordS ⟨dx, dy⟩ k = pathPoint cord ⟨dx, dy⟩ (k + 1) := by
  unfold pathPoint
  exact coord_ext (by dsimp only; congr 1; rw [hsx]; push_cast; ring)
    (by dsimp only; congr 1; rw [hsy]; push_cast; ring)

theorem walkStraight_clean (state : GameState) (color : TileColor) (kind : ActionType)
    (e : Coordinate) (dx dy : Int)
    (hdx : dx = -1 ∨ dx = 0 ∨ dx = 1) (hdy : dy = -1 ∨ dy = 0 ∨ dy = 1)
    (hd0 : ¬(dx = 0 ∧ dy = 0)) (hex : e.x < WIDTH) (hey : e.y < HEIGHT) :
    ∀ (n fuel : Nat) (cord : Coordinate), 1 ≤ n → n ≤ fuel →
      cord.x < WIDTH → cord.y < HEIGHT →
      (e.x : Int) = cord.x + n * dx → (e.y : Int) = cord.y + n * dy →
      (∀ k, 0 < k → k < n →
        (state.square (pathPoint cord ⟨dx, dy⟩ k)).effects.contains Effect.Defence = false) →
      (kind = ActionType.Move → ∀ k, 0 < k → k < n →
        (state.square (pathPoint cord ⟨dx, dy⟩ k)).tile = none) →
      walkStraight state color kind e ⟨dx, dy⟩ fuel cord =
        ((state.square e).effects.contains Effect.Defence ||
          (match (state.square e).tile with
           | some t => decide (color = t.color)
           | none => false)) := by
  have hW : WIDTH = 6 := rfl
  have hH : HEIGHT = 6 := rfl
  intro n
  induction n with
  | zero => intro fuel cord h1; omega
  | succ m ih =>
    intro fuel cord h1 hfuel hcx hcy hx hy hdef hmv
    cases fuel with
    | zero => omega
    | succ f =>
      have hbx : 0 ≤ (cord.x : Int) + dx ∧ (cord.x : Int) + dx < 256 := by
        rcases hdx with rfl | rfl | rfl <;> omega
      have hby : 0 ≤ (cord.y : Int) + dy ∧ (cord.y : Int) + dy < 256 := by
        rcases hdy with rfl | rfl | rfl <;> omega
      have hsx : ((u8OfI8 ((cord.x : Int) + dx)) : Int) = (cord.x : Int) + dx :=
        u8OfI8_int _ hbx.1 hbx.2
      have hsy : ((u8OfI8 ((cord.y : Int) + dy)) : Int) = (cord.y : Int) + dy :=
        u8OfI8_int _ hby.1 hby.2
      rw [walkStraight]
      dsimp only
      cases m with
      | zero =>
        have hEnd : (⟨u8OfI8 ((cord.x : Int) + dx), u8OfI8 ((cord.y : Int) + dy)⟩ :
            Coordinate) = e := by
          apply coord_ext <;> dsimp only <;> omega
        rw [hEnd]
        by_cases hc : (state.square e).effects.contains Effect.Defence = true
        · rw [if_pos hc, hc]
          simp
        · rw [if_neg hc, if_neg (by simp)]
          rw [Bool.not_eq_true] at hc
          rw [hc]
          simp
      | succ m' =>
        have hstep : (⟨u8OfI8 ((cord.x : Int) + dx), u8OfI8 ((cord.y : Int) + dy)⟩ :
            Coordinate) = pathPoint cord ⟨dx, dy⟩ 1 := by
          apply coord_ext <;> dsimp only [pathPoint] <;> omega
        have hpx : ((pathPoint cord ⟨dx, dy⟩ 1).x : Int) = (cord.x : Int) + dx := by
          dsimp only [pathPoint]
          omega
        have hpy : ((pathPoint cord ⟨dx, dy⟩ 1).y : Int) = (cord.y : Int) + dy := by
          dsimp only [pathPoint]
          omega
        have hneq : pathPoint cord ⟨dx, dy⟩ 1 ≠ e := by
          intro hcon
          have hx1 : ((pathPoint cord ⟨dx, dy⟩ 1).x : Int) = e.x := by rw [hcon]
          have hy1 : ((pathPoint cord ⟨dx, dy⟩ 1).y : Int) = e.y := by rw [hcon]
          rw [hpx] at hx1
          rw [hpy] at hy1
          rcases hdx with rfl | rfl | rfl <;> rcases hdy with rfl | rfl | rfl <;>
            simp at hd0 <;> omega
        have hmvfalse : ¬(kind = ActionType.Move ∧
            ((state.square (pathPoint cord ⟨dx, dy⟩ 1)).tile.isSome = true)) := by
          rintro ⟨hk, hts⟩
          rw [hmv hk 1 (by omega) (by omega)] at hts
          cases hts
        rw [hstep]
        rw [if_neg (by rw [hdef 1 (by omega) (by omega)]; exact Bool.false_ne_true)]
        rw [if_pos hneq, if_neg hmvfalse]
        apply ih f (pathPoint cord ⟨dx, dy⟩ 1) (by omega) (by omega)
          (by rcases hdx with rfl | rfl | rfl <;> omega)
          (by rcases hdy with rfl | rfl | rfl <;> omega)
          (by rcases hdx with rfl | rfl | rfl <;> omega)
          (by rcases hdy with rfl | rfl | rfl <;> omega)
        · intro k hk1 hk2
          rw [pathPoint_shift hpx hpy k]
          exact hdef (k + 1) (by omega) (by omega)
        · intro hk k hk1 hk2
          rw [pathPoint_shift hpx hpy k]
          exact hmv hk (k + 1) (by omega) (by omega)

/-- C7 amended: on a straight pair with a Defence-free interior (and, for
Move, an empty interior), path_blocked holds iff the end square carries a
Defence effect or a same-color tile — the end square effects do block, which
is the correction to the claim. -/
theorem c7_amended_end_square_rule (state : GameState) (color : TileColor)
    (kind : ActionType) (start e : Coordinate)
    (hkind : kind = ActionType.Move ∨ kind = ActionType.Jump)
    (hsx : start.x < WIDTH) (hsy : start.y < HEIGHT)
    (hex : e.x < WIDTH) (hey : e.y < HEIGHT)
    (hne : ¬(start.x = e.x ∧ start.y = e.y))
    (hstraight : straight_path start e = true)
    (hdef : ∀ k ∈ List.range' 1 (chebyshev start e - 1),
      (state.square (pathPoint start (get_direction start e) k)).effects.contains
        Effect.Defence = false)
    (hmv : kind = ActionType.Move → ∀ k ∈ List.range' 1 (chebyshev start e - 1),
      (state.square (pathPoint start (get_direction start e) k)).tile = none) :
    path_blocked state color kind start e =
      ((state.square e).effects.contains Effect.Defence ||
        (match (state.square e).tile with
         | some t => decide (color = t.color)
         | none => false)) := by
  have hW : WIDTH = 6 := rfl
  have hH : HEIGHT = 6 := rfl
  obtain ⟨hcheb, hgx, hgy, hdx, hdy, hd0⟩ := straight_geometry hstraight hne
  unfold path_blocked
  dsimp only
  rw [if_pos hstraight]
  have hcheb64 : chebyshev start e ≤ 64 := by
    unfold chebyshev
    omega
  exact walkStraight_clean state color kind e (get_direction start e).x
    (get_direction start e).y hdx hdy hd0 hex hey (chebyshev start e) 64 start
    hcheb hcheb64 hsx hsy hgx hgy
    (fun k hk1 hk2 => hdef k (by rw [List.mem_range'_1]; omega))
    (fun hk k hk1 hk2 => hmv hk k (by rw [List.mem_range'_1]; omega))

/-- Position for the C7 counterexample: a black Footman on (0,0) and a
Defence effect on the empty square (0,1). -/
def c7State : GameState :=
  (({ GameState.new with drawn_tiles := ([], []) }).setTile ⟨0, 0⟩
      (some (Tile.mk' .Footman .Black))).setSquare ⟨0, 1⟩
    { effects := [Effect.Defence], tile := none }

/-- C7 counterexample: from (0,0) to the adjacent empty square (0,1) (no
squares lie strictly between, so the claim hypotheses hold), path_blocked
reports blocked although the end square is unoccupied — a Defence effect on
the end square itself blocks, contradicting the claim. -/
theorem c7_counterexample :
    straight_path ⟨0, 0⟩ ⟨0, 1⟩ = true ∧
    chebyshev ⟨0, 0⟩ ⟨0, 1⟩ = 1 ∧
    (c7State.square ⟨0, 1⟩).tile = none ∧
    path_blocked c7State TileColor.Black ActionType.Move ⟨0, 0⟩ ⟨0, 1⟩ = true := by
  decide

/-- Position for the C7 witness: a black Footman on (0,0), a clean interior
square (0,1), a white Footman on the end square (0,2). -/
def c7WitState : GameState :=
  (({ GameState.new with drawn_tiles := ([], []) }).setTile ⟨0, 0⟩
      (some (Tile.mk' .Footman .Black))).setTile ⟨0, 2⟩
    (some (Tile.mk' .Footman .White))

/-- C7 witness: the amended rule instantiated on a concrete two-step Move
path with empty clean interior and a hostile tile on the end square — not
blocked. -/
theorem c7_amended_witness :
    straight_path ⟨0, 0⟩ ⟨0, 2⟩ = true ∧
    (∀ k ∈ List.range' 1 (chebyshev ⟨0, 0⟩ ⟨0, 2⟩ - 1),
      (c7WitState.square (pathPoint ⟨0, 0⟩ (get_direction ⟨0, 0⟩ ⟨0, 2⟩) k)).effects.contains
        Effect.Defence = false) ∧
    path_blocked c7WitState TileColor.Black ActionType.Move ⟨0, 0⟩ ⟨0, 2⟩ =
      ((c7WitState.square ⟨0, 2⟩).effects.contains Effect.Defence ||
        (match (c7WitState.square ⟨0, 2⟩).tile with
         | some t => decide (TileColor.Black = t.color)
         | none => false)) := by
  refine ⟨by decide, by decide, ?_⟩
  exact c7_amended_end_square_rule c7WitState TileColor.Black ActionType.Move
    ⟨0, 0⟩ ⟨0, 2⟩ (Or.inl rfl) (by decide) (by decide) (by decide) (by decide)
    (by decide) (by decide) (by decide) (fun _ => by decide)

/-- Replacing one list element, seen through a multiset-valued map-sum. -/
theorem map_sum_set {α β : Type} (g : α → Multiset β) :
    ∀ (l : List α) (i : Nat) (x d : α), i < l.length →
      ((l.set i x).map g).sum + g (l.getD i d) = (l.map g).sum + g x := by
  intro l
  induction l with
  | nil => intro i x d h; simp at h
  | cons a tl ih =>
    intro i x d h
    cases i with
    | zero =>
      simp only [List.set, List.getD_cons_zero, List.map_cons, List.sum_cons]
      abel
    | succ j =>
      simp only [List.set, List.getD_cons_succ, List.map_cons, List.sum_cons]
      have hrec := ih j x d (by simpa using Nat.lt_of_succ_lt_succ h)
      rw [add_assoc, add_assoc, hrec]

/-- The board lists keep their shape under setTile. -/
theorem board_length_setTile (s : GameState) (c : Coordinate) (t : Option Tile) :
    (s.setTile c t).board.length = s.board.length := by
  unfold GameState.setTile GameState.setSquare
  simp

/-- Row lengths keep their value under setTile. -/
theorem row_length_setTile (s : GameState) (c : Coordinate) (t : Option Tile) (y : Nat) :
    ((s.setTile c t).board.getD y []).length = (s.board.getD y []).length := by
  unfold GameState.setTile GameState.setSquare
  dsimp only
  simp only [List.getD_eq_getElem?_getD, List.getElem?_set]
  split
  next heq =>
    split
    next hlt =>
      subst heq
      rw [Option.getD_some, List.length_set]
    next hge =>
      subst heq
      rw [List.getElem?_eq_none (by omega)]
  next hne => rfl

/-- Exchanging the tile slot of an in-bounds square exchanges exactly that
tile in the global multiset. -/
theorem all_tiles_setTile {s : GameState} {c : Coordinate} (t : Option Tile)
    (hy : c.y < s.board.length) (hx : c.x < (s.board.getD c.y []).length) :
    all_tiles (s.setTile c t) + optT ((s.square c).tile) = all_tiles s + optT t := by
  unfold all_tiles
  have hb : (s.setTile c t).bags = s.bags := rfl
  have hd : (s.setTile c t).drawn_tiles = s.drawn_tiles := rfl
  have hg : (s.setTile c t).graveyard = s.graveyard := rfl
  rw [hb, hd, hg]
  have hboard : board_tiles (s.setTile c t).board + optT ((s.square c).tile) =
      board_tiles s.board + optT t := by
    unfold GameState.setTile GameState.setSquare board_tiles
    dsimp only
    have houter := map_sum_set tilesRow s.board c.y
      ((s.board.getD c.y []).set c.x { s.square c with tile := t }) [] hy
    have hinner := map_sum_set (fun sq => optT sq.tile) (s.board.getD c.y []) c.x
      { s.square c with tile := t } Square.default hx
    have hsq : (s.board.getD c.y []).getD c.x Square.default = s.square c := rfl
    rw [hsq] at hinner
    have hRR : tilesRow ((s.board.getD c.y []).set c.x { s.square c with tile := t }) +
        optT ((s.square c).tile) = tilesRow (s.board.getD c.y []) + optT t := hinner
    have h3 : (((s.board.set c.y ((s.board.getD c.y []).set c.x
          { s.square c with tile := t })).map tilesRow).sum + optT ((s.square c).tile)) +
        (tilesRow (s.board.getD c.y []) +
          tilesRow ((s.board.getD c.y []).set c.x { s.square c with tile := t })) =
        ((s.board.map tilesRow).sum + optT t) +
        (tilesRow (s.board.getD c.y []) +
          tilesRow ((s.board.getD c.y []).set c.x { s.square c with tile := t })) := by
      calc (((s.board.set c.y ((s.board.getD c.y []).set c.x
              { s.square c with tile := t })).map tilesRow).sum +
            optT ((s.square c).tile)) +
          (tilesRow (s.board.getD c.y []) +
            tilesRow ((s.board.getD c.y []).set c.x { s.square c with tile := t })) =
          (((s.board.set c.y ((s.board.getD c.y []).set c.x
              { s.square c with tile := t })).map tilesRow).sum +
            tilesRow (s.board.getD c.y [])) +
          (tilesRow ((s.board.getD c.y []).set c.x { s.square c with tile := t }) +
            optT ((s.square c).tile)) := by abel
        _ = ((s.board.map tilesRow).sum +
            tilesRow ((s.board.getD c.y []).set c.x { s.square c with tile := t })) +
          (tilesRow (s.board.getD c.y []) + optT t) := by rw [houter, hRR]
        _ = ((s.board.map tilesRow).sum + optT t) +
          (tilesRow (s.board.getD c.y []) +
            tilesRow ((s.board.getD c.y []).set c.x { s.square c with tile := t })) := by
          abel
    exact add_right_cancel h3
  calc board_tiles (s.setTile c t).board + tilesList s.bags.1 + tilesList s.bags.2 +
      tilesList s.drawn_tiles.1 + tilesList s.drawn_tiles.2 + tilesList s.graveyard +
      optT ((s.square c).tile) =
      (board_tiles (s.setTile c t).board + optT ((s.square c).tile)) +
      (tilesList s.bags.1 + tilesList s.bags.2 + tilesList s.drawn_tiles.1 +
        tilesList s.drawn_tiles.2 + tilesList s.graveyard) := by abel
    _ = (board_tiles s.board + optT t) +
      (tilesList s.bags.1 + tilesList s.bags.2 + tilesList s.drawn_tiles.1 +
        tilesList s.drawn_tiles.2 + tilesList s.graveyard) := by rw [hboard]
    _ = board_tiles s.board + tilesList s.bags.1 + tilesList s.bags.2 +
      tilesList s.drawn_tiles.1 + tilesList s.drawn_tiles.2 + tilesList s.graveyard +
      optT t := by abel

/-- tilesList distributes over append. -/
theorem tilesList_append (a b : List Tile) :
    tilesList (a ++ b) = tilesList a + tilesList b := by
  unfold tilesList
  rw [List.map_append, List.sum_append]

/-- Popping the last element removes exactly its identity. -/
theorem tilesList_dropLast {l : List Tile} {t : Tile} (h : l.getLast? = some t) :
    tilesList l.dropLast + {tileId t} = tilesList l := by
  have hne : l ≠ [] := by
    intro hnil
    rw [hnil] at h
    cases h
  have hlast : l.getLast hne = t := by
    have := List.getLast?_eq_getLast l hne
    rw [h] at this
    exact (Option.some_inj.mp this).symm
  conv_rhs => rw [← List.dropLast_append_getLast hne]
  rw [tilesList_append, hlast]
  rfl

/-- Replacing one element exchanges exactly its identity. -/
theorem tilesList_set (l : List Tile) (i : Nat) (x d : Tile) (h : i < l.length) :
    tilesList (l.set i x) + {tileId (l.getD i d)} = tilesList l + {tileId x} :=
  map_sum_set (fun t => ({tileId t} : Multiset (TileType × TileColor))) l i x d h

/-- Vec::swap_remove removes exactly the identity of the removed element. -/
theorem tilesList_swapRemoveD (l : List Tile) (i : Nat) (d : Tile) (h : i < l.length) :
    tilesList (swapRemoveD l i) + {tileId (l.getD i d)} = tilesList l := by
  have hne : l ≠ [] := by
    intro hnil
    subst hnil
    simp at h
  cases hlast : l.getLast? with
  | none =>
    rw [List.getLast?_eq_getLast l hne] at hlast
    cases hlast
  | some last =>
    unfold swapRemoveD
    rw [hlast]
    have hlast2 : (l.set i last).getLast? = some last := by
      rw [List.getLast?_eq_getElem?] at hlast ⊢
      rw [List.length_set, List.getElem?_set]
      split <;> first | rfl | omega | assumption
    have hA := tilesList_dropLast hlast2
    have hB := tilesList_set l i last d h
    have h3 : (tilesList (l.set i last).dropLast + {tileId (l.getD i d)}) +
        {tileId last} = tilesList l + {tileId last} := by
      calc (tilesList (l.set i last).dropLast + {tileId (l.getD i d)}) + {tileId last} =
          (tilesList (l.set i last).dropLast + {tileId last}) + {tileId (l.getD i d)} := by
            abel
        _ = tilesList (l.set i last) + {tileId (l.getD i d)} := by rw [hA]
        _ = tilesList l + {tileId last} := hB
    exact add_right_cancel h3

/-- The graveyard push adds exactly the captured identity. -/
theorem all_tiles_push_graveyard (s : GameState) (t : Tile) :
    all_tiles (graveyardPush s t) = all_tiles s + {tileId t} := by
  unfold all_tiles graveyardPush
  dsimp only
  rw [tilesList_append]
  have : tilesList [t] = {tileId t} := by
    unfold tilesList
    simp
  rw [this]
  abel

/-- The duke caches do not hold tiles. -/
theorem all_tiles_setOwnDuke (s : GameState) (p : Option Coordinate) :
    all_tiles (s.setOwnDuke p) = all_tiles s := rfl

/-- Clearing the opponent duke cache does not move tiles. -/
theorem all_tiles_setOpponentDuke (s : GameState) (p : Option Coordinate) :
    all_tiles (s.setOpponentDuke p) = all_tiles s := rfl

/-- Replacing the current bag exchanges its contents in the global count. -/
theorem all_tiles_setBag (s : GameState) (l : List Tile) :
    all_tiles (s.setBag l) + tilesList s.bag = all_tiles s + tilesList l := by
  unfold all_tiles GameState.setBag GameState.bag pick setPick
  cases s.ply <;> (dsimp only; abel)

/-- Replacing the current drawn queue exchanges its contents. -/
theorem all_tiles_setDrawn (s : GameState) (l : List Tile) :
    all_tiles (s.setDrawn l) + tilesList s.drawn = all_tiles s + tilesList l := by
  unfold all_tiles GameState.setDrawn GameState.drawn pick setPick
  cases s.ply <;> (dsimp only; abel)

/-- The ply switch and terminal check move no tiles. -/
theorem all_tiles_finish_turn (s : GameState) :
    all_tiles (finish_turn s) = all_tiles s := by
  unfold finish_turn
  dsimp only
  split
  · split
    · split <;> rfl
    · rfl
  · split <;> rfl

/-- The fact about enumerated actions needed for conservation: an action
whose result is Move targets an empty square (Command additionally, but a
separate argument shows its target differs from the commander square). -/
def result_move_empty (s : GameState) : Action → Prop
  | .Move d => d.result = ActionResult.Move → (s.square d.target_pos).tile = none
  | .Jump d => d.result = ActionResult.Move → (s.square d.target_pos).tile = none
  | .Slide d => d.result = ActionResult.Move → (s.square d.target_pos).tile = none
  | .JumpSlide d => d.result = ActionResult.Move → (s.square d.target_pos).tile = none
  | .Command d => d.result = ActionResult.Move → (s.square d.target_pos).tile = none
  | _ => True

/-- get_move_action only returns Move results onto empty squares. -/
theorem get_move_action_rme {s : GameState} {p : Coordinate} {t : Tile}
    {tgt : Coordinate} {a : Action} (h : get_move_action s p t tgt = some a) :
    result_move_empty s a := by
  unfold get_move_action at h
  split at h
  · cases h
  · split at h
    next blocking heq =>
      split at h
      · cases h
        intro hres
        cases hres
      · cases h
    next heq =>
      cases h
      intro hres
      exact heq

/-- get_jump_action only returns Move results onto empty squares. -/
theorem get_jump_action_rme {s : GameState} {p : Coordinate} {t : Tile}
    {tgt : Coordinate} {a : Action} (h : get_jump_action s p t tgt = some a) :
    result_move_empty s a := by
  unfold get_jump_action at h
  split at h
  · cases h
  · split at h
    next blocking heq =>
      split at h
      · cases h
        intro hres
        cases hres
      · cases h
    next heq =>
      cases h
      intro hres
      exact heq

/-- get_strike_action returns only captures. -/
theorem get_strike_action_rme {s : GameState} {p : Coordinate} {t : Tile}
    {tgt : Coordinate} {a : Action} (h : get_strike_action s p t tgt = some a) :
    result_move_empty s a := by
  unfold get_strike_action at h
  split at h
  · cases h
  · split at h
    next blocking heq =>
      split at h
      · cases h
        trivial
      · cases h
    next heq => cases h

/-- The slide loop emits Move results only from empty squares. -/
theorem slideLoop_rme {s : GameState} {p : Coordinate} {t : Tile} {js : Bool}
    {dir : Direction} :
    ∀ (fuel x y : Nat) (a : Action), a ∈ slideLoop s p t js dir fuel x y →
      result_move_empty s a := by
  intro fuel
  induction fuel with
  | zero => intro x y a ha; cases ha
  | succ f ih =>
    intro x y a ha
    rw [slideLoop] at ha
    dsimp only at ha
    by_cases hb : x < WIDTH ∧ y < HEIGHT
    · rw [if_pos hb] at ha
      by_cases hdef : (s.square ⟨x, y⟩).effects.contains Effect.Defence = true
      · rw [if_pos hdef] at ha
        cases ha
      · rw [if_neg hdef] at ha
        cases htile : (s.square ⟨x, y⟩).tile with
        | some blocking =>
          rw [htile] at ha
          dsimp only at ha
          by_cases hc : t.color ≠ blocking.color
          · rw [if_pos hc] at ha
            cases js <;> simp only [Bool.false_eq_true, if_false, if_true] at ha <;>
              (rw [List.mem_singleton] at ha; subst ha; intro hres; cases hres)
          · rw [if_neg hc] at ha
            cases ha
        | none =>
          rw [htile] at ha
          dsimp only at ha
          cases ha with
          | head =>
            cases js <;> simp only [Bool.false_eq_true, if_false, if_true] <;>
              (intro hres; exact htile)
          | tail _ hmem => exact ih _ _ a hmem
    · rw [if_neg hb] at ha
      cases ha

/-- get_slide_actions emits Move results only from empty squares. -/
theorem get_slide_actions_rme {s : GameState} {p : Coordinate} {t : Tile} {js : Bool}
    {start : Coordinate} {a : Action} (h : a ∈ get_slide_actions s p t js start) :
    result_move_empty s a := by
  unfold get_slide_actions at h
  split at h
  · cases h
  · exact slideLoop_rme _ _ _ a h

/-- get_command_actions emits Move results only onto empty squares. -/
theorem get_command_actions_rme {s : GameState} {p : Coordinate} {t : Tile}
    {tgt : Coordinate} {a : Action} (h : a ∈ get_command_actions s p t tgt) :
    result_move_empty s a := by
  unfold get_command_actions at h
  split at h
  · cases h
  · split at h
    · cases h
    · rw [List.mem_filterMap] at h
      obtain ⟨cord, hcord, hsome⟩ := h
      split at hsome
      next tt heq =>
        split at hsome
        · cases hsome
          intro hres
          cases hres
        · cases hsome
      next heq =>
        cases hsome
        intro hres
        exact heq

/-- Every action enumerated for one tile satisfies the Move-empty fact. -/
theorem get_tile_actions_rme {s : GameState} {p : Coordinate} {a : Action}
    (h : a ∈ get_tile_actions s p) : result_move_empty s a := by
  unfold get_tile_actions at h
  split at h
  · cases h
  · split at h
    next => cases h
    next tile heq =>
      split at h
      · cases h
      · rw [List.mem_flatMap] at h
        obtain ⟨act, hact, hmem⟩ := h
        dsimp only at hmem
        split at hmem
        · cases hmem
        · split at hmem
          · rw [Option.mem_toList, Option.mem_def] at hmem
            exact get_move_action_rme hmem
          · rw [Option.mem_toList, Option.mem_def] at hmem
            exact get_jump_action_rme hmem
          · exact get_slide_actions_rme hmem
          · exact get_slide_actions_rme hmem
          · exact get_command_actions_rme hmem
          · rw [Option.mem_toList, Option.mem_def] at hmem
            exact get_strike_action_rme hmem
          · cases hmem

/-- Every action returned by get_actions satisfies the Move-empty fact. -/
theorem get_actions_rme {s : GameState} {a : Action} (h : a ∈ get_actions s) :
    result_move_empty s a := by
  unfold get_actions at h
  split at h
  · cases h
  · dsimp only at h
    split at h
    · rw [List.mem_map] at h
      obtain ⟨c, _, rfl⟩ := h
      trivial
    · rw [List.mem_append] at h
      rcases h with h | h
      · split at h
        · rw [List.mem_singleton] at h
          subst h
          trivial
        · cases h
      · rw [List.mem_flatMap] at h
        obtain ⟨y, hy, h⟩ := h
        rw [List.mem_flatMap] at h
        obtain ⟨x, hx, h⟩ := h
        split at h
        next tile heq =>
          split at h
          · exact get_tile_actions_rme h
          · cases h
        next => cases h

/-- Shorthand for an in-bounds coordinate of a board. -/
def inb (s : GameState) (c : Coordinate) : Prop :=
  c.y < s.board.length ∧ c.x < (s.board.getD c.y []).length

/-- setTile preserves in-boundedness in both directions. -/
theorem inb_setTile {s : GameState} {c0 : Coordinate} {t : Option Tile} {c : Coordinate} :
    inb (s.setTile c0 t) c ↔ inb s c := by
  unfold inb
  rw [board_length_setTile, row_length_setTile]

/-- In-bounds from an occupied square. -/
theorem inb_of_square_some {s : GameState} {c : Coordinate} {u : Tile}
    (h : (s.square c).tile = some u) : inb s c :=
  square_some_inbounds h

/-- all_tiles_setTile stated on inb. -/
theorem all_tiles_setTile' {s : GameState} {c : Coordinate} (t : Option Tile)
    (h : inb s c) :
    all_tiles (s.setTile c t) + optT ((s.square c).tile) = all_tiles s + optT t :=
  all_tiles_setTile t h.1 h.2

@[simp] theorem optT_none : optT none = 0 := rfl

@[simp] theorem optT_some (t : Tile) : optT (some t) = {tileId t} := rfl

@[simp] theorem tileId_flip (t : Tile) : tileId t.flip = tileId t := rfl

@[simp] theorem square_update_graveyard (s : GameState) (g : List Tile) (c : Coordinate) :
    ({ s with graveyard := g } : GameState).square c = s.square c := rfl


/-- Generic conservation step for a capture: clearing bookkeeping (any state
Y agreeing with X on board and tiles), pushing the victim to the graveyard
and overwriting its square exchanges the victim for the placed tile. -/
theorem graveyard_swap_tiles (Y : GameState) {X : GameState} {tgt : Coordinate}
    {captured : Tile} (u : Option Tile)
    (hYsq : Y.square tgt = X.square tgt)
    (hYt : all_tiles Y = all_tiles X)
    (hYb : Y.board = X.board)
    (hcap : (X.square tgt).tile = some captured)
    (hbt : inb X tgt) :
    all_tiles ((graveyardPush Y captured).setTile tgt u) = all_tiles X + optT u := by
  have hbtg : inb (graveyardPush Y captured) tgt := by
    unfold inb
    rw [board_graveyardPush, hYb]
    exact hbt
  have hmid := all_tiles_setTile' u hbtg
  rw [square_graveyardPush, hYsq, hcap, all_tiles_push_graveyard, hYt] at hmid
  simp only [optT_some] at hmid
  have h4 : all_tiles ((graveyardPush Y captured).setTile tgt u) + {tileId captured}
      = (all_tiles X + optT u) + {tileId captured} := by
    rw [hmid]
    abel
  exact add_right_cancel h4

/-- Conservation of tile identities through the standard_action closure,
assuming a Move-result lands on an empty square of the original state. -/
theorem standard_action_tiles {s st : GameState} {d : ActionData}
    (h : standard_action s d = some st)
    (hrme : d.result = ActionResult.Move → (s.square d.target_pos).tile = none) :
    all_tiles st = all_tiles s := by
  obtain ⟨tile0, h1, hcol, ⟨t6, ht6⟩, halt⟩ := standard_action_spec h
  have hb1 : inb s d.tile_pos := inb_of_square_some h1
  have hA : all_tiles (s.setTile d.tile_pos none) + {tileId tile0} = all_tiles s := by
    have hx := all_tiles_setTile' none hb1
    rw [h1] at hx
    simpa using hx
  rcases halt with ⟨hres, captured, hcap, rfl⟩ | ⟨hres, rfl⟩
  · have hbt : inb (s.setTile d.tile_pos none) d.target_pos := inb_of_square_some hcap
    unfold standard_capture_result
    dsimp only
    by_cases hcd : captured.kind = TileType.Duke
    · rw [if_pos hcd]
      have h2 := graveyard_swap_tiles ((s.setTile d.tile_pos none).setOpponentDuke none)
        (some tile0.flip) rfl rfl rfl hcap hbt
      simp only [optT_some, tileId_flip] at h2
      split <;> exact h2.trans hA
    · rw [if_neg hcd]
      have h2 := graveyard_swap_tiles (s.setTile d.tile_pos none)
        (some tile0.flip) rfl rfl rfl hcap hbt
      simp only [optT_some, tileId_flip] at h2
      split <;> exact h2.trans hA
  · unfold standard_move_result at ht6 ⊢
    dsimp only at ht6 ⊢
    have ht6' : (((s.setTile d.tile_pos none).setTile d.target_pos
        (some tile0.flip)).square d.target_pos).tile = some t6 := by
      split at ht6 <;> exact ht6
    have hbt : inb (s.setTile d.tile_pos none) d.target_pos :=
      inb_setTile.mp (inb_of_square_some ht6')
    have hXe : (((s.setTile d.tile_pos none).square d.target_pos)).tile = none := by
      by_cases hc : d.target_pos.x = d.tile_pos.x ∧ d.target_pos.y = d.tile_pos.y
      · have hcc : d.target_pos = d.tile_pos := coord_ext hc.1 hc.2
        rw [hcc, square_setTile_self hb1.1 hb1.2 none]
      · rw [not_and_or] at hc
        rw [square_setTile_ne none hc]
        exact hrme hres
    have hmid := all_tiles_setTile' (some tile0.flip) hbt
    rw [hXe] at hmid
    simp only [optT_none, optT_some, tileId_flip, add_zero] at hmid
    split <;> exact hmid.trans hA

/-- Conservation through PlaceNew assembly when the target square is empty. -/
theorem place_tiles {s : GameState} {c : Coordinate} {tile : Tile}
    (hlast : s.drawn.getLast? = some tile)
    (hinb : inb s c)
    (hempty : (s.square c).tile = none) :
    all_tiles (place_result s c tile) = all_tiles s := by
  have h1 : all_tiles (s.setDrawn s.drawn.dropLast) + {tileId tile} = all_tiles s := by
    have hx := all_tiles_setDrawn s s.drawn.dropLast
    have hy := tilesList_dropLast hlast
    have h4 : (all_tiles (s.setDrawn s.drawn.dropLast) + {tileId tile}) +
        tilesList s.drawn.dropLast = all_tiles s + tilesList s.drawn.dropLast := by
      calc (all_tiles (s.setDrawn s.drawn.dropLast) + {tileId tile}) +
            tilesList s.drawn.dropLast
          = all_tiles (s.setDrawn s.drawn.dropLast) +
            (tilesList s.drawn.dropLast + {tileId tile}) := by abel
        _ = all_tiles (s.setDrawn s.drawn.dropLast) + tilesList s.drawn := by rw [hy]
        _ = all_tiles s + tilesList s.drawn.dropLast := hx
    exact add_right_cancel h4
  unfold place_result
  dsimp only
  by_cases hdk : tile.kind = TileType.Duke
  · rw [if_pos hdk]
    have hb2 : inb ((s.setDrawn s.drawn.dropLast).setOwnDuke (some c)) c := hinb
    have hmid := all_tiles_setTile' (some tile) hb2
    rw [square_setOwnDuke, square_setDrawn, hempty] at hmid
    simp only [optT_none, optT_some, add_zero] at hmid
    rw [all_tiles_setOwnDuke] at hmid
    exact hmid.trans h1
  · rw [if_neg hdk]
    have hb2 : inb (s.setDrawn s.drawn.dropLast) c := hinb
    have hmid := all_tiles_setTile' (some tile) hb2
    rw [square_setDrawn, hempty] at hmid
    simp only [optT_none, optT_some, add_zero] at hmid
    exact hmid.trans h1

/-- Conservation through the NewFromBag branch: the drawn tile moves from the
bag to the drawn queue. -/
theorem newfrombag_tiles {s : GameState} {idx : Nat} {tile : Tile}
    (hget : s.bag.get? idx = some tile) :
    all_tiles ((s.setBag (swapRemoveD s.bag idx)).setDrawn
      ((s.setBag (swapRemoveD s.bag idx)).drawn ++ [tile])) = all_tiles s := by
  have hlt : idx < s.bag.length := by
    by_contra hge
    push_neg at hge
    rw [List.get?_eq_none.mpr hge] at hget
    cases hget
  have hgd : s.bag.getD idx dummyTile = tile := by
    rw [List.getD_eq_getElem?_getD, ← List.get?_eq_getElem?, hget]
    rfl
  have hswap := tilesList_swapRemoveD s.bag idx dummyTile hlt
  rw [hgd] at hswap
  have hbag := all_tiles_setBag s (swapRemoveD s.bag idx)
  have h1 : all_tiles (s.setBag (swapRemoveD s.bag idx)) + {tileId tile} = all_tiles s := by
    have h4 : (all_tiles (s.setBag (swapRemoveD s.bag idx)) + {tileId tile}) +
        tilesList (swapRemoveD s.bag idx)
        = all_tiles s + tilesList (swapRemoveD s.bag idx) := by
      calc (all_tiles (s.setBag (swapRemoveD s.bag idx)) + {tileId tile}) +
            tilesList (swapRemoveD s.bag idx)
          = all_tiles (s.setBag (swapRemoveD s.bag idx)) +
            (tilesList (swapRemoveD s.bag idx) + {tileId tile}) := by abel
        _ = all_tiles (s.setBag (swapRemoveD s.bag idx)) + tilesList s.bag := by rw [hswap]
        _ = all_tiles s + tilesList (swapRemoveD s.bag idx) := hbag
    exact add_right_cancel h4
  have hsingle : tilesList [tile] = {tileId tile} := by
    unfold tilesList
    simp
  have hdrawn := all_tiles_setDrawn (s.setBag (swapRemoveD s.bag idx))
    ((s.setBag (swapRemoveD s.bag idx)).drawn ++ [tile])
  rw [tilesList_append, hsingle] at hdrawn
  have h2 : all_tiles ((s.setBag (swapRemoveD s.bag idx)).setDrawn
      ((s.setBag (swapRemoveD s.bag idx)).drawn ++ [tile]))
      = all_tiles (s.setBag (swapRemoveD s.bag idx)) + {tileId tile} := by
    have h4 : all_tiles ((s.setBag (swapRemoveD s.bag idx)).setDrawn
        ((s.setBag (swapRemoveD s.bag idx)).drawn ++ [tile])) +
        tilesList (s.setBag (swapRemoveD s.bag idx)).drawn
        = (all_tiles (s.setBag (swapRemoveD s.bag idx)) + {tileId tile}) +
          tilesList (s.setBag (swapRemoveD s.bag idx)).drawn := by
      rw [hdrawn]
      abel
    exact add_right_cancel h4
  exact h2.trans h1

/-- Conservation through the command_action closure, assuming a Move-result
lands on an empty square of the original state. -/
theorem command_action_tiles {s st : GameState} {d : CommandActionData}
    (h : command_action s d = some st)
    (hrme : d.result = ActionResult.Move → (s.square d.target_pos).tile = none) :
    all_tiles st = all_tiles s := by
  obtain ⟨c0, h1, hcol, tile, h2, base, hbase, commander, hcmdr, rfl, td, htd⟩ :=
    command_action_spec h
  have hb2 : inb s d.command_tile_pos := inb_of_square_some h2
  have hA : all_tiles (s.setTile d.command_tile_pos none) + {tileId tile} = all_tiles s := by
    have hx := all_tiles_setTile' none hb2
    rw [h2] at hx
    simpa using hx
  have hbase_tiles : all_tiles base = all_tiles s := by
    rcases hbase with ⟨hres, captured, hcap, rfl⟩ | ⟨hres, rfl⟩
    · have hbt : inb (s.setTile d.command_tile_pos none) d.target_pos :=
        inb_of_square_some hcap
      unfold command_base_capture
      dsimp only
      by_cases hcd : captured.kind = TileType.Duke
      · rw [if_pos hcd]
        have hsw := graveyard_swap_tiles
          ((s.setTile d.command_tile_pos none).setOpponentDuke none)
          (some tile) rfl rfl rfl hcap hbt
        simp only [optT_some] at hsw
        exact hsw.trans hA
      · rw [if_neg hcd]
        have hsw := graveyard_swap_tiles (s.setTile d.command_tile_pos none)
          (some tile) rfl rfl rfl hcap hbt
        simp only [optT_some] at hsw
        exact hsw.trans hA
    · unfold command_base_move at htd ⊢
      have hbt : inb (s.setTile d.command_tile_pos none) d.target_pos :=
        inb_setTile.mp (inb_setTile.mp (inb_of_square_some htd))
      have hXe : ((s.setTile d.command_tile_pos none).square d.target_pos).tile = none := by
        by_cases hc : d.target_pos.x = d.command_tile_pos.x ∧
            d.target_pos.y = d.command_tile_pos.y
        · have hcc : d.target_pos = d.command_tile_pos := coord_ext hc.1 hc.2
          rw [hcc, square_setTile_self hb2.1 hb2.2 none]
        · rw [not_and_or] at hc
          rw [square_setTile_ne none hc]
          exact hrme hres
      have hmid := all_tiles_setTile' (some tile) hbt
      rw [hXe] at hmid
      simp only [optT_none, optT_some, add_zero] at hmid
      exact hmid.trans hA
  have hbtp : inb base d.tile_pos := inb_of_square_some hcmdr
  have hfin := all_tiles_setTile' (some commander.flip) hbtp
  rw [hcmdr] at hfin
  simp only [optT_some, tileId_flip] at hfin
  have h4 : all_tiles (base.setTile d.tile_pos (some commander.flip)) + {tileId commander}
      = all_tiles s + {tileId commander} := by
    rw [hfin, hbase_tiles]
  exact add_right_cancel h4

/-- Conservation through the strike_action closure: the victim moves to the
graveyard, the striker flips in place. -/
theorem strike_action_tiles {s st : GameState} {d : ActionData}
    (h : strike_action s d = some st) :
    all_tiles st = all_tiles s := by
  obtain ⟨s0, h1, hcol, captured, h2, striker, h3, rfl⟩ := strike_action_spec h
  have hbt : inb s d.target_pos := inb_of_square_some h2
  have hbase_tiles : all_tiles (strike_base s d captured) = all_tiles s := by
    unfold strike_base
    dsimp only
    by_cases hcd : captured.kind = TileType.Duke
    · rw [if_pos hcd]
      have hsw := graveyard_swap_tiles (s.setOpponentDuke none)
        (none : Option Tile) rfl rfl rfl h2 hbt
      simpa using hsw
    · rw [if_neg hcd]
      have hsw := graveyard_swap_tiles s (none : Option Tile) rfl rfl rfl h2 hbt
      simpa using hsw
  have hbtp : inb (strike_base s d captured) d.tile_pos := inb_of_square_some h3
  have hfin := all_tiles_setTile' (some striker.flip) hbtp
  rw [h3] at hfin
  simp only [optT_some, tileId_flip] at hfin
  have h4 : all_tiles ((strike_base s d captured).setTile d.tile_pos (some striker.flip)) +
      {tileId striker} = all_tiles s + {tileId striker} := by
    rw [hfin, hbase_tiles]
  exact add_right_cancel h4

/-- A state satisfying the documented invariants (consistent duke cache,
empty effect lists, game not over) whose drawn queue holds a Duke while an
own Footman stands on the opening spawn square (2,0). -/
def c2State : GameState :=
  ({ board := emptyBoard, bags := ([], []),
     drawn_tiles := ([Tile.mk' TileType.Duke TileColor.Black], []),
     graveyard := [], ply := TileColor.Black, game_over := none,
     dukes := (none, none) } : GameState).setTile ⟨2, 0⟩
    (some (Tile.mk' TileType.Footman TileColor.Black))

/-- C2 counterexample: tile conservation fails as stated.  c2State satisfies
the documented state invariants (duke cache consistency, empty effects, game
not over), PlaceNew(2,0) is returned by get_actions, do_unsafe_action_copy
succeeds on it, yet the global multiset of tile identities shrinks: the
placed Duke overwrites the Footman standing on the spawn square, because the
duke-placement branch of get_spawn_squares never checks that the two fixed
opening squares are empty. -/
theorem c2_counterexample :
    ∃ s1, duke_cache_consistent c2State = true ∧ effects_empty c2State = true ∧
      c2State.game_over = none ∧
      Action.PlaceNew ⟨2, 0⟩ ∈ get_actions c2State ∧
      do_unsafe_action_copy c2State (Action.PlaceNew ⟨2, 0⟩) 0 = some s1 ∧
      all_tiles s1 ≠ all_tiles c2State := by
  refine ⟨(do_unsafe_action_copy c2State (Action.PlaceNew ⟨2, 0⟩) 0).getD c2State,
    by decide, by decide, by decide, by decide, by decide, by decide⟩

/-- C2 (amended): tile conservation holds for every legal action under the
amendment that a PlaceNew action only targets an empty square (which the
duke-placement branch of get_spawn_squares does not by itself guarantee):
if a ∈ get_actions s, the PlaceNew target (if any) is empty in s, and
do_unsafe_action_copy s a idx succeeds, then the multiset of tile identities
collected from the board, both bags, both drawn queues and the graveyard is
unchanged, for every action variant. -/
theorem c2_tile_conservation_amended (s s1 : GameState) (a : Action) (idx : Nat)
    (hmem : a ∈ get_actions s)
    (hplace : ∀ c, a = Action.PlaceNew c → (s.square c).tile = none)
    (h : do_unsafe_action_copy s a idx = some s1) :
    all_tiles s1 = all_tiles s := by
  unfold do_unsafe_action_copy at h
  have hrme := get_actions_rme hmem
  cases a with
  | NewFromBag =>
    obtain ⟨tile, hget, rfl⟩ := do_newfrombag_spec h
    exact newfrombag_tiles hget
  | PlaceNew c =>
    obtain ⟨tile, hlast, hcolor, ⟨tt, htt⟩, rfl⟩ := do_placenew_spec h
    have hb := inb_of_square_some htt
    have hinb : inb s c := by
      unfold place_result at hb
      dsimp only at hb
      rw [inb_setTile] at hb
      split at hb <;> exact hb
    rw [all_tiles_finish_turn]
    exact place_tiles hlast hinb (hplace c rfl)
  | Move d =>
    unfold do_unsafe_action at h
    rw [Option.map_eq_some'] at h
    obtain ⟨st, hst, rfl⟩ := h
    rw [all_tiles_finish_turn]
    exact standard_action_tiles hst hrme
  | Jump d =>
    unfold do_unsafe_action at h
    rw [Option.map_eq_some'] at h
    obtain ⟨st, hst, rfl⟩ := h
    rw [all_tiles_finish_turn]
    exact standard_action_tiles hst hrme
  | Slide d =>
    unfold do_unsafe_action at h
    rw [Option.map_eq_some'] at h
    obtain ⟨st, hst, rfl⟩ := h
    rw [all_tiles_finish_turn]
    exact standard_action_tiles hst hrme
  | JumpSlide d =>
    unfold do_unsafe_action at h
    rw [Option.map_eq_some'] at h
    obtain ⟨st, hst, rfl⟩ := h
    rw [all_tiles_finish_turn]
    exact standard_action_tiles hst hrme
  | Command d =>
    unfold do_unsafe_action at h
    rw [Option.map_eq_some'] at h
    obtain ⟨st, hst, rfl⟩ := h
    rw [all_tiles_finish_turn]
    exact command_action_tiles hst hrme
  | Strike d =>
    unfold do_unsafe_action at h
    rw [Option.map_eq_some'] at h
    obtain ⟨st, hst, rfl⟩ := h
    rw [all_tiles_finish_turn]
    exact strike_action_tiles hst

/-- Witness for the amended C2 theorem on the opening Duke placement from
GameState.new. -/
theorem c2_tile_conservation_witness :
    all_tiles ((do_unsafe_action_copy GameState.new (Action.PlaceNew ⟨2, 0⟩) 0).getD
      GameState.new) = all_tiles GameState.new := by
  cases hE : do_unsafe_action_copy GameState.new (Action.PlaceNew ⟨2, 0⟩) 0 with
  | none => rfl
  | some s1 =>
    rw [Option.getD_some]
    exact c2_tile_conservation_amended GameState.new s1 (Action.PlaceNew ⟨2, 0⟩) 0
      (by decide)
      (fun c hc => by
        injection hc with h2
        subst h2
        decide)
      hE

/-- A small position used to exhibit the default depth bound of the search:
Black Duke on (0,0) behind its Footman on (1,0); the White Duke on (5,0) is
immobilised behind the White Pikeman on (4,0), which has no legal moves on
its own back rank, and White's only mobile piece is the Footman on (0,5).
Each side has exactly two actions, and the depth-4 and depth-5 searches
choose different root actions for Black. -/
def c6State : GameState :=
  (((({ board := emptyBoard, bags := ([], []), drawn_tiles := ([], []),
        graveyard := [], ply := TileColor.Black, game_over := none,
        dukes := (some ⟨0, 0⟩, some ⟨5, 0⟩) } : GameState).setTile ⟨0, 0⟩
      (some (Tile.mk' TileType.Duke TileColor.Black))).setTile ⟨1, 0⟩
      (some (Tile.mk' TileType.Footman TileColor.Black))).setTile ⟨5, 0⟩
      (some (Tile.mk' TileType.Duke TileColor.White))).setTile ⟨4, 0⟩
      (some (Tile.mk' TileType.Pikeman TileColor.White)) |>.setTile ⟨0, 5⟩
      (some (Tile.mk' TileType.Footman TileColor.White))

/-- An agent with no depth bound and a wall-clock bound, as in the claim. -/
def c6Agent : Agent := ⟨TileColor.Black, none, some 1⟩

set_option maxRecDepth 1000000 in
set_option maxHeartbeats 16000000 in
/-- C6 counterexample: an agent with depth = none and duration = some t is
not free of a depth bound.  Its search equals the alpha-beta recursion cut
at the default depth 4, and on c6State — with the deadline never firing —
that depth-4 cut returns a different action than the same recursion allowed
one ply more, so the depth truncation (not the wall clock) limits the
search. -/
theorem c6_counterexample :
    c6Agent.depth = none ∧ c6Agent.duration.isSome = true ∧
      alpha_beta_search c6Agent c6State false
        = (alpha_beta c6Agent c6State I32_MIN I32_MAX 4 (some false) true true).1 ∧
      (alpha_beta c6Agent c6State I32_MIN I32_MAX 4 (some false) true true).1
        ≠ (alpha_beta c6Agent c6State I32_MIN I32_MAX 5 (some false) true true).1 :=
  ⟨rfl, rfl, rfl, by decide⟩

/-- C6 (amended): when exactly one of the two bounds is set, the search is
configured as follows.  With depth = some d and duration = none no timer is
created: the recursion runs to depth d with timer none, and the result does
not depend on the wall clock.  With depth = none and duration = some t a
timer is created, but the depth bound is not absent: it defaults to 4. -/
theorem c6_search_bounds_amended (agent : Agent) (state : GameState)
    (timedOut : Bool) (d t : Nat) :
    (agent.depth = some d → agent.duration = none →
      alpha_beta_search agent state timedOut
        = (alpha_beta agent state I32_MIN I32_MAX d none true true).1) ∧
    (agent.depth = none → agent.duration = some t →
      alpha_beta_search agent state timedOut
        = (alpha_beta agent state I32_MIN I32_MAX 4 (some timedOut) true true).1) := by
  constructor
  · intro h1 h2
    unfold alpha_beta_search
    rw [h1, h2]
  · intro h1 h2
    unfold alpha_beta_search
    rw [h1, h2]

/-- Witness for the amended C6 theorem at a concrete agent and state. -/
theorem c6_search_bounds_witness :
    alpha_beta_search c6Agent c6State false
      = (alpha_beta c6Agent c6State I32_MIN I32_MAX 4 (some false) true true).1 :=
  (c6_search_bounds_amended c6Agent c6State false 0 1).2 rfl rfl
